import Mathlib

/-!
A verification development for the postrust repository: a shallow embedding
of the SQL-fragment builder (`crates/postrust-sql`), the request parser and
the planner (`crates/postrust-core`), together with theorems about the
properties the specification claims for them.

Strings of the Rust source (`String` / `&str`) are modelled as `List Char`
(abbreviated `Str`); Lean `String` literals are converted with `.data` when
concrete inputs are written down.  Rust `usize` arithmetic on placeholder
indices is idealised as `Nat`: the source's `parse::<usize>()` additionally
fails on numerals of 2^64 and above, a branch unreachable for the indices
the builder itself generates and not modelled here.
-/

namespace Postrust

deriving instance DecidableEq for Except

/-- Model of Rust string data: a list of characters. -/
abbrev Str := List Char

/-- Decimal digits of `n`, most significant first, via fuel-indexed recursion
(model of Rust's `write!("{}", n)` rendering).  `natDigitsGo fuel n` is the
digit list of `n` provided `fuel ≥ n`. -/
def natDigitsGo : Nat → Nat → List Char
  | 0, _ => []
  | fuel + 1, n => if n = 0 then [] else natDigitsGo fuel (n / 10) ++ [Nat.digitChar (n % 10)]

/-- Decimal rendering of a natural number, as in Rust's `write!("{}", n)`. -/
def natDigits (n : Nat) : List Char :=
  if n = 0 then ['0'] else natDigitsGo n n

/-- Numeric value of a list of ASCII digits, as computed by Rust's
`str::parse` on a digit string (`acc * 10 + digit`). -/
def digitsToNat (ds : List Char) : Nat :=
  ds.foldl (fun a c => 10 * a + (c.toNat - 48)) 0

/-- Model of `SqlParam` (`crates/postrust-sql/src/param.rs`), restricted to
the constructors exercised by the embedded code paths (the source also has
Float/Bytes/Json/Uuid/Timestamp/Array variants, none of which is produced
by the builders modelled here). -/
inductive SqlParam where
  | null : SqlParam
  | bool (b : Bool) : SqlParam
  | int (i : Int) : SqlParam
  | text (s : Str) : SqlParam
deriving DecidableEq

/-- The scan loop of `renumber_params`, indexed by fuel so that the
recursion is structural (the fuel is always at least the remaining length,
so the zero-fuel arm is unreachable). -/
def renGo : Nat → Str → Nat → Str
  | _, [], _ => []
  | 0, _ :: _, _ => []
  | fuel + 1, c :: rest, offset =>
    if c = '$' then
      let ds := rest.takeWhile Char.isDigit
      if ds = [] then
        '$' :: renGo fuel rest offset
      else
        '$' :: (natDigits (digitsToNat ds + offset) ++
          renGo fuel (rest.dropWhile Char.isDigit) offset)
    else c :: renGo fuel rest offset

/-- Model of `renumber_params` (`builder.rs` lines 145-173): scan the SQL
text; each `$` followed by a non-empty run of ASCII digits is a placeholder
whose number is shifted by `offset`; a `$` followed by no digit is copied
unchanged, as is every other character. -/
def renumber_params (sql : Str) (offset : Nat) : Str :=
  renGo sql.length sql offset

/-- The multiset of placeholder token values occurring in an SQL text, read
off by the same scan as `renumber_params`: each maximal `$`-plus-digits run
contributes its numeric value.  This is the specification-side notion of
"placeholder tokens `$k`" used by the well-formedness claims. -/
def placeholders (sql : Str) : List Nat :=
  match sql with
  | [] => []
  | c :: rest =>
    if c = '$' then
      let ds := rest.takeWhile Char.isDigit
      if ds = [] then
        placeholders rest
      else
        digitsToNat ds :: placeholders (rest.dropWhile Char.isDigit)
    else placeholders rest
termination_by sql.length
decreasing_by
  · simp
  · have h := (List.dropWhile_sublist (l := rest) Char.isDigit).length_le
    simp; omega
  · simp

/-- Model of `SqlFragment` (`builder.rs`): an SQL text paired with its
positional parameters. -/
structure SqlFragment where
  sql : Str
  params : List SqlParam
deriving DecidableEq

namespace SqlFragment

/-- `SqlFragment::new` / `default`. -/
def new : SqlFragment := ⟨[], []⟩

/-- `SqlFragment::raw`. -/
def raw (s : Str) : SqlFragment := ⟨s, []⟩

/-- `SqlFragment::push`: append raw SQL, no parameters. -/
def push (f : SqlFragment) (s : Str) : SqlFragment :=
  { f with sql := f.sql ++ s }

/-- `SqlFragment::push_param`: append `$N` with `N = params.len() + 1` and
record the value. -/
def push_param (f : SqlFragment) (v : SqlParam) : SqlFragment :=
  { sql := f.sql ++ '$' :: natDigits (f.params.length + 1),
    params := f.params ++ [v] }

/-- `SqlFragment::push_typed_param`: append `$N::type` and record the value. -/
def push_typed_param (f : SqlFragment) (v : SqlParam) (pgType : Str) : SqlFragment :=
  { sql := f.sql ++ '$' :: (natDigits (f.params.length + 1) ++ ':' :: ':' :: pgType),
    params := f.params ++ [v] }

/-- `SqlFragment::append`: concatenate, renumbering the right fragment's
placeholders by the left fragment's parameter count. -/
def append (f other : SqlFragment) : SqlFragment :=
  { sql := f.sql ++ renumber_params other.sql f.params.length,
    params := f.params ++ other.params }

/-- `SqlFragment::parens`: wrap the SQL text in parentheses. -/
def parens (f : SqlFragment) : SqlFragment :=
  { f with sql := '(' :: (f.sql ++ [')']) }

/-- `SqlFragment::join`: fold the fragments left to right, skipping fragments
with empty SQL and inserting the separator before every appended fragment
except the first (`builder.rs` lines 113-130). -/
def join (sep : Str) (frags : List SqlFragment) : SqlFragment :=
  (frags.foldl
    (fun (acc : SqlFragment × Bool) frag =>
      if frag.sql = [] then acc
      else ((if acc.2 then acc.1 else acc.1.push sep).append frag, false))
    (SqlFragment.new, true)).1

/-- `SqlFragment::build`: the final `(sql, params)` pair. -/
def build (f : SqlFragment) : Str × List SqlParam := (f.sql, f.params)

end SqlFragment

/-- An SQL text whose first character (if any) is not an ASCII digit.  Such a
text cannot extend a placeholder token that ends immediately before it. -/
def headNotDigit (s : Str) : Prop :=
  ∀ c, s.head? = some c → c.isDigit = false

/-- A raw SQL text containing no `$` character. -/
def noDollar (s : Str) : Prop := ∀ c ∈ s, c ≠ '$'

/-- A raw SQL text that is safe to push into a fragment: it contains no `$`
and does not start with an ASCII digit. -/
def safeRaw (s : Str) : Prop := noDollar s ∧ headNotDigit s

/-- The fragments built through `push` (of `$`-free, non-digit-leading raw
SQL), `push_param`, `push_typed_param` (of a `$`-free type), `append`, `join`
(with a safe separator) and `parens`, starting from the empty fragment. -/
inductive Built : SqlFragment → Prop where
  | new : Built SqlFragment.new
  | push {f : SqlFragment} (s : Str) : Built f → safeRaw s → Built (f.push s)
  | push_param {f : SqlFragment} (v : SqlParam) : Built f → Built (f.push_param v)
  | push_typed_param {f : SqlFragment} (v : SqlParam) (t : Str) :
      Built f → noDollar t → Built (f.push_typed_param v t)
  | append {f g : SqlFragment} : Built f → Built g → Built (f.append g)
  | parens {f : SqlFragment} : Built f → Built f.parens
  | join (sep : Str) (l : List SqlFragment) :
      (∀ g ∈ l, Built g) → safeRaw sep → Built (SqlFragment.join sep l)

/-- Placeholder well-formedness: the SQL text contains the placeholder tokens
`$1 … $|params|`, each at least once, and no others. -/
def wellFormed (f : SqlFragment) : Prop :=
  ∀ k, k ∈ placeholders f.sql ↔ 1 ≤ k ∧ k ≤ f.params.length

theorem natDigitsGo_zero (fuel : Nat) : natDigitsGo fuel 0 = [] := by
  cases fuel <;> simp [natDigitsGo]

theorem digitVal_digitChar {d : Nat} (h : d < 10) : (Nat.digitChar d).toNat - 48 = d := by
  interval_cases d <;> decide

theorem isDigit_digitChar {d : Nat} (h : d < 10) : (Nat.digitChar d).isDigit = true := by
  interval_cases d <;> decide

theorem digitsToNat_append_singleton (A : Str) (c : Char) :
    digitsToNat (A ++ [c]) = 10 * digitsToNat A + (c.toNat - 48) := by
  simp [digitsToNat, List.foldl_append]

theorem digitsToNat_natDigitsGo :
    ∀ n fuel, n ≤ fuel → digitsToNat (natDigitsGo fuel n) = n := by
  intro n
  induction n using Nat.strong_induction_on with
  | _ n ih =>
    intro fuel hle
    rcases Nat.eq_zero_or_pos n with hz | hpos
    · subst hz; rw [natDigitsGo_zero]; rfl
    · obtain ⟨f, rfl⟩ : ∃ f, fuel = f + 1 := ⟨fuel - 1, by omega⟩
      have hne : n ≠ 0 := by omega
      have hdiv : n / 10 < n := Nat.div_lt_self hpos (by omega)
      rw [natDigitsGo, if_neg hne, digitsToNat_append_singleton,
        ih (n / 10) hdiv f (by omega), digitVal_digitChar (Nat.mod_lt n (by omega))]
      omega

theorem digitsToNat_natDigits (n : Nat) : digitsToNat (natDigits n) = n := by
  rcases Nat.eq_zero_or_pos n with hz | hpos
  · subst hz; rfl
  · rw [natDigits, if_neg (by omega)]
    exact digitsToNat_natDigitsGo n n le_rfl

theorem isDigit_of_mem_natDigitsGo :
    ∀ fuel n, ∀ c ∈ natDigitsGo fuel n, c.isDigit = true := by
  intro fuel
  induction fuel with
  | zero => intro n c hc; simp [natDigitsGo] at hc
  | succ f ih =>
    intro n c hc
    by_cases hn : n = 0
    · subst hn; simp [natDigitsGo] at hc
    · rw [natDigitsGo, if_neg hn] at hc
      rcases List.mem_append.mp hc with h | h
      · exact ih _ c h
      · rcases List.mem_singleton.mp h with rfl
        exact isDigit_digitChar (Nat.mod_lt n (by omega))

theorem isDigit_of_mem_natDigits (n : Nat) : ∀ c ∈ natDigits n, c.isDigit = true := by
  intro c hc
  by_cases hn : n = 0
  · subst hn; simp [natDigits] at hc; subst hc; decide
  · rw [natDigits, if_neg hn] at hc
    exact isDigit_of_mem_natDigitsGo n n c hc

theorem natDigits_ne_nil (n : Nat) : natDigits n ≠ [] := by
  by_cases hn : n = 0
  · subst hn; simp [natDigits]
  · rw [natDigits, if_neg hn]
    obtain ⟨f, rfl⟩ : ∃ f, n = f + 1 := ⟨n - 1, by omega⟩
    rw [natDigitsGo, if_neg hn]
    simp

theorem headNotDigit_nil : headNotDigit [] := by
  intro c h; simp at h

theorem headNotDigit_cons {c : Char} {s : Str} :
    headNotDigit (c :: s) ↔ c.isDigit = false := by
  constructor
  · intro h; exact h c rfl
  · intro h d hd; simp at hd; subst hd; exact h

theorem headNotDigit_append {x y : Str} (hx : headNotDigit x) (hy : headNotDigit y) :
    headNotDigit (x ++ y) := by
  cases x with
  | nil => simpa using hy
  | cons c s => exact headNotDigit_cons.mpr (headNotDigit_cons.mp hx)

theorem headNotDigit_dropWhile (l : Str) :
    headNotDigit (l.dropWhile Char.isDigit) := by
  induction l with
  | nil => exact headNotDigit_nil
  | cons c rest ih =>
    by_cases hc : c.isDigit
    · simpa [List.dropWhile_cons, hc] using ih
    · simp only [List.dropWhile_cons, hc]
      simp only [Bool.false_eq_true, if_false]
      exact headNotDigit_cons.mpr (by simpa using hc)

theorem takeWhile_eq_nil_of_headNot {p : Char → Bool} {l : Str}
    (h : ∀ c, l.head? = some c → p c = false) : l.takeWhile p = [] := by
  cases l with
  | nil => rfl
  | cons c rest => simp [List.takeWhile_cons, h c rfl]

theorem headNot_of_takeWhile_eq_nil {p : Char → Bool} {l : Str}
    (h : l.takeWhile p = []) : ∀ c, l.head? = some c → p c = false := by
  intro c hc
  cases l with
  | nil => simp at hc
  | cons d rest =>
    simp at hc; subst hc
    cases hpd : p d
    · rfl
    · rw [List.takeWhile_cons, hpd] at h; simp at h

theorem takeWhile_append_headNot {p : Char → Bool} {y : Str}
    (hy : ∀ c, y.head? = some c → p c = false) :
    ∀ x : Str, (x ++ y).takeWhile p = x.takeWhile p ∧
      (x ++ y).dropWhile p = x.dropWhile p ++ y := by
  intro x
  induction x with
  | nil =>
    refine ⟨takeWhile_eq_nil_of_headNot hy, ?_⟩
    cases y with
    | nil => rfl
    | cons c rest => simp [List.dropWhile_cons, hy c rfl]
  | cons a x ih =>
    by_cases ha : p a
    · simp [List.takeWhile_cons, List.dropWhile_cons, ha, ih.1, ih.2]
    · simp [List.takeWhile_cons, List.dropWhile_cons, ha]

theorem takeWhile_all_append {p : Char → Bool} {A B : Str}
    (hA : ∀ c ∈ A, p c = true) (hB : ∀ c, B.head? = some c → p c = false) :
    (A ++ B).takeWhile p = A ∧ (A ++ B).dropWhile p = B := by
  induction A with
  | nil =>
    refine ⟨takeWhile_eq_nil_of_headNot hB, ?_⟩
    cases B with
    | nil => rfl
    | cons c rest => simp [List.dropWhile_cons, hB c rfl]
  | cons a A ih =>
    have ha : p a = true := hA a (List.mem_cons_self a A)
    have ih' := ih (fun c hc => hA c (List.mem_cons_of_mem a hc))
    simp [List.takeWhile_cons, List.dropWhile_cons, ha, ih'.1, ih'.2]

theorem placeholders_nil : placeholders [] = [] := by
  rw [placeholders]

theorem placeholders_cons_dollar (rest : Str) :
    placeholders ('$' :: rest) =
      if rest.takeWhile Char.isDigit = [] then placeholders rest
      else digitsToNat (rest.takeWhile Char.isDigit) ::
        placeholders (rest.dropWhile Char.isDigit) := by
  rw [placeholders]; simp

theorem placeholders_cons_ne {c : Char} (hc : c ≠ '$') (rest : Str) :
    placeholders (c :: rest) = placeholders rest := by
  rw [placeholders]; simp [hc]

theorem renGo_nil (fuel off : Nat) : renGo fuel [] off = [] := by
  cases fuel <;> rfl

theorem renGo_cons (fuel : Nat) (c : Char) (rest : Str) (off : Nat) :
    renGo (fuel + 1) (c :: rest) off =
      if c = '$' then
        if rest.takeWhile Char.isDigit = [] then '$' :: renGo fuel rest off
        else '$' :: (natDigits (digitsToNat (rest.takeWhile Char.isDigit) + off) ++
          renGo fuel (rest.dropWhile Char.isDigit) off)
      else c :: renGo fuel rest off := rfl

theorem renGo_fuel_eq :
    ∀ f1 (sql : Str) (f2 off : Nat), sql.length ≤ f1 → sql.length ≤ f2 →
      renGo f1 sql off = renGo f2 sql off := by
  intro f1
  induction f1 with
  | zero =>
    intro sql f2 off h1 h2
    cases sql with
    | nil => rw [renGo_nil, renGo_nil]
    | cons c rest => simp at h1
  | succ f ih =>
    intro sql f2 off h1 h2
    cases sql with
    | nil => rw [renGo_nil, renGo_nil]
    | cons c rest =>
      obtain ⟨f2', rfl⟩ : ∃ g, f2 = g + 1 := ⟨f2 - 1, by simp at h2; omega⟩
      rw [renGo_cons, renGo_cons]
      simp only [List.length_cons] at h1 h2
      have hdw := (List.dropWhile_sublist (l := rest) Char.isDigit).length_le
      by_cases hc : c = '$'
      · rw [if_pos hc, if_pos hc]
        by_cases hds : rest.takeWhile Char.isDigit = []
        · rw [if_pos hds, if_pos hds, ih rest f2' off (by omega) (by omega)]
        · rw [if_neg hds, if_neg hds,
            ih (rest.dropWhile Char.isDigit) f2' off (by omega) (by omega)]
      · rw [if_neg hc, if_neg hc, ih rest f2' off (by omega) (by omega)]

theorem renumber_params_nil (off : Nat) : renumber_params [] off = [] := rfl

theorem renumber_params_cons_dollar (rest : Str) (off : Nat) :
    renumber_params ('$' :: rest) off =
      if rest.takeWhile Char.isDigit = [] then '$' :: renumber_params rest off
      else '$' :: (natDigits (digitsToNat (rest.takeWhile Char.isDigit) + off) ++
        renumber_params (rest.dropWhile Char.isDigit) off) := by
  have hdw := (List.dropWhile_sublist (l := rest) Char.isDigit).length_le
  show renGo (rest.length + 1) ('$' :: rest) off = _
  rw [renGo_cons, if_pos rfl]
  by_cases hds : rest.takeWhile Char.isDigit = []
  · rw [if_pos hds, if_pos hds]
    rfl
  · rw [if_neg hds, if_neg hds,
      renGo_fuel_eq rest.length (rest.dropWhile Char.isDigit)
        (rest.dropWhile Char.isDigit).length off (by omega) le_rfl]
    rfl

theorem renumber_params_cons_ne {c : Char} (hc : c ≠ '$') (rest : Str) (off : Nat) :
    renumber_params (c :: rest) off = c :: renumber_params rest off := by
  show renGo (rest.length + 1) (c :: rest) off = _
  rw [renGo_cons, if_neg hc]
  rfl

theorem headNotDigit_renumber {s : Str} (h : headNotDigit s) (off : Nat) :
    headNotDigit (renumber_params s off) := by
  cases s with
  | nil => rw [renumber_params_nil]; exact headNotDigit_nil
  | cons c rest =>
    by_cases hc : c = '$'
    · subst hc
      rw [renumber_params_cons_dollar]
      by_cases hds : rest.takeWhile Char.isDigit = []
      · rw [if_pos hds]; exact headNotDigit_cons.mpr (by decide)
      · rw [if_neg hds]; exact headNotDigit_cons.mpr (by decide)
    · rw [renumber_params_cons_ne hc]
      exact headNotDigit_cons.mpr (headNotDigit_cons.mp h)

theorem placeholders_eq_nil_of_noDollar {s : Str} (h : noDollar s) : placeholders s = [] := by
  induction s with
  | nil => exact placeholders_nil
  | cons c rest ih =>
    have hc : c ≠ '$' := h c (List.mem_cons_self c rest)
    rw [placeholders_cons_ne hc]
    exact ih (fun d hd => h d (List.mem_cons_of_mem c hd))

theorem placeholders_append {y : Str} (hy : headNotDigit y) :
    ∀ x : Str, placeholders (x ++ y) = placeholders x ++ placeholders y := by
  intro x
  induction x using placeholders.induct with
  | case1 => simp [placeholders_nil]
  | case2 rest ds hds ih =>
    have hds' : List.takeWhile Char.isDigit rest = [] := hds
    have hb := takeWhile_append_headNot (p := Char.isDigit) hy rest
    rw [List.cons_append, placeholders_cons_dollar, hb.1, if_pos hds', ih,
      placeholders_cons_dollar, if_pos hds']
  | case3 rest ds hds ih =>
    have hds' : ¬List.takeWhile Char.isDigit rest = [] := hds
    have hb := takeWhile_append_headNot (p := Char.isDigit) hy rest
    rw [List.cons_append, placeholders_cons_dollar, hb.1, if_neg hds', hb.2, ih,
      placeholders_cons_dollar, if_neg hds']
    simp
  | case4 c rest hc ih =>
    rw [List.cons_append, placeholders_cons_ne hc, ih, placeholders_cons_ne hc]

theorem renumber_params_append {y : Str} (hy : headNotDigit y) :
    ∀ (x : Str) (off : Nat),
      renumber_params (x ++ y) off = renumber_params x off ++ renumber_params y off := by
  intro x off
  induction x using placeholders.induct with
  | case1 => simp [renumber_params_nil]
  | case2 rest ds hds ih =>
    have hds' : List.takeWhile Char.isDigit rest = [] := hds
    have hb := takeWhile_append_headNot (p := Char.isDigit) hy rest
    rw [List.cons_append, renumber_params_cons_dollar, hb.1, if_pos hds', ih,
      renumber_params_cons_dollar, if_pos hds']
    simp
  | case3 rest ds hds ih =>
    have hds' : ¬List.takeWhile Char.isDigit rest = [] := hds
    have hb := takeWhile_append_headNot (p := Char.isDigit) hy rest
    rw [List.cons_append, renumber_params_cons_dollar, hb.1, if_neg hds', hb.2, ih,
      renumber_params_cons_dollar, if_neg hds']
    simp
  | case4 c rest hc ih =>
    rw [List.cons_append, renumber_params_cons_ne hc, ih, renumber_params_cons_ne hc]
    simp

theorem placeholders_renumber :
    ∀ (s : Str) (off : Nat),
      placeholders (renumber_params s off) = (placeholders s).map (· + off) := by
  intro s off
  induction s using placeholders.induct with
  | case1 => simp [renumber_params_nil, placeholders_nil]
  | case2 rest ds hds ih =>
    have hds' : List.takeWhile Char.isDigit rest = [] := hds
    have hnd : headNotDigit rest := headNot_of_takeWhile_eq_nil hds'
    rw [renumber_params_cons_dollar, if_pos hds', placeholders_cons_dollar,
      takeWhile_eq_nil_of_headNot (headNotDigit_renumber hnd off), if_pos rfl, ih,
      placeholders_cons_dollar, if_pos hds']
  | case3 rest ds hds ih =>
    have hds' : ¬List.takeWhile Char.isDigit rest = [] := hds
    have hren := headNotDigit_renumber (headNotDigit_dropWhile rest) off
    have hAB := takeWhile_all_append (p := Char.isDigit)
      (isDigit_of_mem_natDigits (digitsToNat (rest.takeWhile Char.isDigit) + off)) hren
    rw [renumber_params_cons_dollar, if_neg hds', placeholders_cons_dollar, hAB.1, hAB.2,
      if_neg (natDigits_ne_nil _), digitsToNat_natDigits, ih,
      placeholders_cons_dollar, if_neg hds']
    simp
  | case4 c rest hc ih =>
    rw [renumber_params_cons_ne hc, placeholders_cons_ne hc, ih, placeholders_cons_ne hc]

theorem renumber_params_comp :
    ∀ (s : Str) (o1 o2 : Nat),
      renumber_params (renumber_params s o1) o2 = renumber_params s (o1 + o2) := by
  intro s o1 o2
  induction s using placeholders.induct with
  | case1 => simp [renumber_params_nil]
  | case2 rest ds hds ih =>
    have hds' : List.takeWhile Char.isDigit rest = [] := hds
    have hnd : headNotDigit rest := headNot_of_takeWhile_eq_nil hds'
    rw [renumber_params_cons_dollar, if_pos hds', renumber_params_cons_dollar,
      takeWhile_eq_nil_of_headNot (headNotDigit_renumber hnd o1), if_pos rfl, ih,
      renumber_params_cons_dollar, if_pos hds']
  | case3 rest ds hds ih =>
    have hds' : ¬List.takeWhile Char.isDigit rest = [] := hds
    have hren := headNotDigit_renumber (headNotDigit_dropWhile rest) o1
    have hAB := takeWhile_all_append (p := Char.isDigit)
      (isDigit_of_mem_natDigits (digitsToNat (rest.takeWhile Char.isDigit) + o1)) hren
    rw [renumber_params_cons_dollar, if_neg hds', renumber_params_cons_dollar, hAB.1, hAB.2,
      if_neg (natDigits_ne_nil _), digitsToNat_natDigits, ih,
      renumber_params_cons_dollar, if_neg hds', Nat.add_assoc]
  | case4 c rest hc ih =>
    rw [renumber_params_cons_ne hc, renumber_params_cons_ne hc, ih,
      renumber_params_cons_ne hc]

/-- The invariant preserved by all safe builder operations: placeholder
well-formedness together with a non-digit first character. -/
def FragInv (f : SqlFragment) : Prop := wellFormed f ∧ headNotDigit f.sql

theorem fragInv_new : FragInv SqlFragment.new := by
  constructor
  · intro k
    simp only [SqlFragment.new, placeholders_nil, List.not_mem_nil, false_iff,
      List.length_nil]
    omega
  · exact headNotDigit_nil

theorem fragInv_push {f : SqlFragment} {s : Str} (hf : FragInv f) (hs : safeRaw s) :
    FragInv (f.push s) := by
  constructor
  · intro k
    simp only [SqlFragment.push]
    rw [placeholders_append hs.2, placeholders_eq_nil_of_noDollar hs.1, List.append_nil]
    exact hf.1 k
  · exact headNotDigit_append hf.2 hs.2

theorem placeholders_dollar_digits (n : Nat) (tail : Str) (ht : headNotDigit tail)
    (hnod : noDollar tail) :
    placeholders ('$' :: (natDigits n ++ tail)) = [n] := by
  have hAB := takeWhile_all_append (p := Char.isDigit) (isDigit_of_mem_natDigits n) ht
  rw [placeholders_cons_dollar, hAB.1, hAB.2, if_neg (natDigits_ne_nil n),
    digitsToNat_natDigits, placeholders_eq_nil_of_noDollar hnod]

theorem fragInv_push_param {f : SqlFragment} {v : SqlParam} (hf : FragInv f) :
    FragInv (f.push_param v) := by
  constructor
  · intro k
    simp only [SqlFragment.push_param]
    rw [placeholders_append (y := '$' :: natDigits (f.params.length + 1))
        (headNotDigit_cons.mpr (by decide))]
    have h1 : placeholders ('$' :: natDigits (f.params.length + 1)) =
        [f.params.length + 1] := by
      have := placeholders_dollar_digits (f.params.length + 1) [] headNotDigit_nil
        (fun c hc => absurd hc (List.not_mem_nil c))
      simpa using this
    rw [h1]
    have h2 := hf.1 k
    simp only [List.mem_append, List.mem_singleton, h2, List.length_append,
      List.length_singleton]
    omega
  · cases hsql : f.sql with
    | nil =>
      simp only [SqlFragment.push_param, hsql, List.nil_append]
      exact headNotDigit_cons.mpr (by decide)
    | cons c rest =>
      simp only [SqlFragment.push_param, hsql, List.cons_append]
      exact headNotDigit_cons.mpr (headNotDigit_cons.mp (hsql ▸ hf.2))

theorem fragInv_push_typed_param {f : SqlFragment} {v : SqlParam} {t : Str}
    (hf : FragInv f) (ht : noDollar t) : FragInv (f.push_typed_param v t) := by
  constructor
  · intro k
    simp only [SqlFragment.push_typed_param]
    rw [placeholders_append
        (y := '$' :: (natDigits (f.params.length + 1) ++ ':' :: ':' :: t))
        (headNotDigit_cons.mpr (by decide))]
    have h1 : placeholders ('$' :: (natDigits (f.params.length + 1) ++ ':' :: ':' :: t)) =
        [f.params.length + 1] := by
      refine placeholders_dollar_digits _ _ (headNotDigit_cons.mpr (by decide)) ?_
      intro c hc
      rcases List.mem_cons.mp hc with rfl | hc
      · decide
      · rcases List.mem_cons.mp hc with rfl | hc
        · decide
        · exact ht c hc
    rw [h1]
    have h2 := hf.1 k
    simp only [List.mem_append, List.mem_singleton, h2, List.length_append,
      List.length_singleton]
    omega
  · cases hsql : f.sql with
    | nil =>
      simp only [SqlFragment.push_typed_param, hsql, List.nil_append]
      exact headNotDigit_cons.mpr (by decide)
    | cons c rest =>
      simp only [SqlFragment.push_typed_param, hsql, List.cons_append]
      exact headNotDigit_cons.mpr (headNotDigit_cons.mp (hsql ▸ hf.2))

theorem fragInv_append {f g : SqlFragment} (hf : FragInv f) (hg : FragInv g) :
    FragInv (f.append g) := by
  constructor
  · intro k
    simp only [SqlFragment.append]
    rw [placeholders_append (headNotDigit_renumber hg.2 f.params.length),
      placeholders_renumber]
    simp only [List.mem_append, List.mem_map, List.length_append]
    constructor
    · rintro (hk | ⟨j, hj, rfl⟩)
      · have := (hf.1 k).mp hk; omega
      · have := (hg.1 j).mp hj; omega
    · intro hk
      by_cases hle : k ≤ f.params.length
      · exact Or.inl ((hf.1 k).mpr ⟨hk.1, hle⟩)
      · refine Or.inr ⟨k - f.params.length, (hg.1 _).mpr ⟨by omega, by omega⟩, by omega⟩
  · cases hsql : f.sql with
    | nil =>
      simp only [SqlFragment.append, hsql, List.nil_append]
      exact headNotDigit_renumber hg.2 f.params.length
    | cons c rest =>
      simp only [SqlFragment.append, hsql, List.cons_append]
      exact headNotDigit_cons.mpr (headNotDigit_cons.mp (hsql ▸ hf.2))

theorem fragInv_parens {f : SqlFragment} (hf : FragInv f) : FragInv f.parens := by
  constructor
  · intro k
    simp only [SqlFragment.parens]
    rw [placeholders_cons_ne (by decide),
      placeholders_append (y := [')']) (headNotDigit_cons.mpr (by decide))]
    have h1 : placeholders [')'] = [] := by
      rw [placeholders_cons_ne (by decide), placeholders_nil]
    rw [h1, List.append_nil]
    exact hf.1 k
  · exact headNotDigit_cons.mpr (by decide)

theorem fragInv_join_go {sep : Str} (hsep : safeRaw sep) :
    ∀ (l : List SqlFragment), (∀ g ∈ l, FragInv g) →
      ∀ (acc : SqlFragment × Bool), FragInv acc.1 →
        FragInv (l.foldl
          (fun (acc : SqlFragment × Bool) frag =>
            if frag.sql = [] then acc
            else ((if acc.2 then acc.1 else acc.1.push sep).append frag, false))
          acc).1 := by
  intro l
  induction l with
  | nil => intro _ acc hacc; exact hacc
  | cons g l ih =>
    intro hl acc hacc
    simp only [List.foldl_cons]
    by_cases hg : g.sql = []
    · rw [if_pos hg]
      exact ih (fun h hh => hl h (List.mem_cons_of_mem g hh)) acc hacc
    · rw [if_neg hg]
      refine ih (fun h hh => hl h (List.mem_cons_of_mem g hh)) _ ?_
      have hginv := hl g (List.mem_cons_self g l)
      by_cases hb : acc.2
      · simp only [hb, if_pos rfl]
        exact fragInv_append hacc hginv
      · rw [if_neg hb]
        exact fragInv_append (fragInv_push hacc hsep) hginv

theorem fragInv_join {sep : Str} {l : List SqlFragment}
    (hl : ∀ g ∈ l, FragInv g) (hsep : safeRaw sep) :
    FragInv (SqlFragment.join sep l) := by
  unfold SqlFragment.join
  exact fragInv_join_go hsep l hl (SqlFragment.new, true) fragInv_new

theorem built_fragInv {f : SqlFragment} (h : Built f) : FragInv f := by
  induction h with
  | new => exact fragInv_new
  | push s _ hs ih => exact fragInv_push ih hs
  | push_param v _ ih => exact fragInv_push_param ih
  | push_typed_param v t _ ht ih => exact fragInv_push_typed_param ih ht
  | append _ _ ihf ihg => exact fragInv_append ihf ihg
  | parens _ ih => exact fragInv_parens ih
  | join sep l _ hsep ih => exact fragInv_join ih hsep

theorem headNotDigit_of_head {s : Str} (h : s.head?.all (fun c => !c.isDigit) = true) :
    headNotDigit s := by
  intro c hc
  rw [hc] at h
  simpa using h

theorem noDollar_of_all {s : Str} (h : s.all (fun c => decide (c ≠ '$')) = true) :
    noDollar s := by
  intro c hc
  have := List.all_eq_true.mp h c hc
  simpa using this

theorem safeRaw_of_checks {s : Str} (h1 : s.all (fun c => decide (c ≠ '$')) = true)
    (h2 : s.head?.all (fun c => !c.isDigit) = true) : safeRaw s :=
  ⟨noDollar_of_all h1, headNotDigit_of_head h2⟩

/-- C1 (amended).  Every fragment built through `push` of raw SQL that is
`$`-free and does not start with a digit, `push_param`, `push_typed_param`
with a `$`-free type, `append`, `join` with such a separator, and `parens`
has placeholder tokens exactly `$1 … $|params|`, each appearing at least
once and none outside that range; `append` renumbers the right-hand
fragment's tokens by the left-hand parameter count, preserving this. -/
theorem claim_C1_placeholder_wellformedness (f : SqlFragment) (h : Built f) :
    ∀ k, k ∈ placeholders f.sql ↔ 1 ≤ k ∧ k ≤ f.params.length :=
  (built_fragInv h).1

theorem claim_C1_witness :
    1 ∈ placeholders (((SqlFragment.new.push
        "SELECT id FROM users WHERE id = ".data).push_param
        (SqlParam.text ['5'])).sql) ↔
      1 ≤ 1 ∧ 1 ≤ (((SqlFragment.new.push
        "SELECT id FROM users WHERE id = ".data).push_param
        (SqlParam.text ['5'])).params).length :=
  claim_C1_placeholder_wellformedness _
    (Built.push_param _ (Built.push _ Built.new
      (safeRaw_of_checks (by decide) (by decide)))) 1

/-- C1, counterexample to the claim as stated: `push` accepts arbitrary raw
SQL, and pushing the text `$2` produces a fragment whose SQL contains the
placeholder token `$2` while it has no parameters at all. -/
theorem claim_C1_counterexample :
    ¬ wellFormed (SqlFragment.new.push ['$', '2']) := by
  intro h
  have hph : placeholders (SqlFragment.new.push ['$', '2']).sql = [2] := by
    simp +decide [SqlFragment.push, SqlFragment.new, placeholders_cons_dollar,
      placeholders_nil, digitsToNat]
  have h2 := (h 2).mp (by rw [hph]; exact List.mem_singleton.mpr rfl)
  simp [SqlFragment.push, SqlFragment.new] at h2

/-- C7 (amended).  Appending is associative on `(sql, params)` pairs
whenever the rightmost fragment's SQL does not start with an ASCII digit
(for a digit-leading right fragment the two groupings can merge the digits
into different placeholder tokens, see the counterexample). -/
theorem claim_C7_append_assoc (a b c : SqlFragment) (hc : headNotDigit c.sql) :
    (a.append b).append c = a.append (b.append c) := by
  obtain ⟨sa, pa⟩ := a
  obtain ⟨sb, pb⟩ := b
  obtain ⟨sc, pc⟩ := c
  simp only [SqlFragment.append, SqlFragment.mk.injEq]
  constructor
  · rw [renumber_params_append (headNotDigit_renumber hc pb.length) sb pa.length,
      renumber_params_comp, List.append_assoc, List.length_append,
      Nat.add_comm pb.length pa.length]
  · exact List.append_assoc pa pb pc

theorem claim_C7_witness :
    ((((SqlFragment.new.push "x = ".data).push_param (SqlParam.text ['1'])).append
        ((SqlFragment.new.push " AND y = ".data).push_param (SqlParam.text ['2']))).append
        ((SqlFragment.new.push " AND z = ".data).push_param (SqlParam.text ['3']))) =
      (((SqlFragment.new.push "x = ".data).push_param (SqlParam.text ['1'])).append
        (((SqlFragment.new.push " AND y = ".data).push_param (SqlParam.text ['2'])).append
          ((SqlFragment.new.push " AND z = ".data).push_param (SqlParam.text ['3'])))) :=
  claim_C7_append_assoc _ _ _ (headNotDigit_of_head (by decide))

/-- C7, counterexample to the claim as stated: with `a = $1` (one param),
`b` the raw text `$` and `c` the raw text `2`, grouping left yields the SQL
`$1$2` while grouping right yields `$1$3`: the `$` of `b` and the digit of
`c` merge into a placeholder token whose renumbering depends on the
grouping. -/
theorem claim_C7_counterexample :
    ¬ (((SqlFragment.new.push_param (SqlParam.text ['v'])).append
          (SqlFragment.raw ['$'])).append (SqlFragment.raw ['2']) =
        (SqlFragment.new.push_param (SqlParam.text ['v'])).append
          ((SqlFragment.raw ['$']).append (SqlFragment.raw ['2']))) := by
  decide

/-! ### Identifier primitives (`crates/postrust-sql/src/identifier.rs`) -/

/-- `escape_ident`: wrap in double quotes, doubling embedded double quotes. -/
def escape_ident (name : Str) : Str :=
  '"' :: ((name.flatMap fun c => if c = '"' then ['"', '"'] else [c]) ++ ['"'])

/-- Model of `QualifiedIdentifier` (both the `postrust-sql` and the
`postrust-core` copy, which have identical shape). -/
structure QualifiedIdentifier where
  schema : Str
  name : Str
deriving DecidableEq

/-- `QualifiedIdentifier::unqualified`. -/
def QualifiedIdentifier.unqualified (name : Str) : QualifiedIdentifier := ⟨[], name⟩

/-- `from_qi`: render a qualified identifier with escaping, omitting the
schema part when it is empty. -/
def from_qi (qi : QualifiedIdentifier) : Str :=
  if qi.schema = [] then escape_ident qi.name
  else escape_ident qi.schema ++ '.' :: escape_ident qi.name

/-- The `Display` form of `QualifiedIdentifier` (`api_request/types.rs`),
used in error messages. -/
def QualifiedIdentifier.toStr (qi : QualifiedIdentifier) : Str :=
  if qi.schema = [] then qi.name else qi.schema ++ '.' :: qi.name

/-! ### Request types (`crates/postrust-core/src/api_request/types.rs`) -/

/-- `JsonOperand`. -/
inductive JsonOperand where
  | key (k : Str) : JsonOperand
  | idx (i : Int) : JsonOperand
deriving DecidableEq

/-- `JsonOperation`. -/
inductive JsonOperation where
  | arrow (o : JsonOperand) : JsonOperation
  | doubleArrow (o : JsonOperand) : JsonOperation
deriving DecidableEq

/-- `JsonPath`. -/
abbrev JsonPath := List JsonOperation

/-- `Field`. -/
structure Field where
  name : Str
  json_path : JsonPath
deriving DecidableEq

/-- `Field::simple`. -/
def Field.simple (name : Str) : Field := ⟨name, []⟩

/-- `SimpleOperator`. -/
inductive SimpleOperator where
  | notEqual | contains | contained | overlap | strictlyLeft | strictlyRight
  | notExtendsRight | notExtendsLeft | adjacent
deriving DecidableEq

/-- `SimpleOperator::to_sql`. -/
def SimpleOperator.to_sql : SimpleOperator → Str
  | .notEqual => "<>".data
  | .contains => "@>".data
  | .contained => "<@".data
  | .overlap => "&&".data
  | .strictlyLeft => "<<".data
  | .strictlyRight => ">>".data
  | .notExtendsRight => "&<".data
  | .notExtendsLeft => "&>".data
  | .adjacent => "-|-".data

/-- `QuantOperator`. -/
inductive QuantOperator where
  | equal | greaterThanEqual | greaterThan | lessThanEqual | lessThan
  | like | ilike | matches | imatches
deriving DecidableEq

/-- `QuantOperator::to_sql`. -/
def QuantOperator.to_sql : QuantOperator → Str
  | .equal => "=".data
  | .greaterThanEqual => ">=".data
  | .greaterThan => ">".data
  | .lessThanEqual => "<=".data
  | .lessThan => "<".data
  | .like => "LIKE".data
  | .ilike => "ILIKE".data
  | .matches => "~".data
  | .imatches => "~*".data

/-- `OpQuantifier`. -/
inductive OpQuantifier where
  | any | all
deriving DecidableEq

/-- `FtsOperator`. -/
inductive FtsOperator where
  | fts | plain | phrase | websearch
deriving DecidableEq

/-- `FtsOperator::to_function`. -/
def FtsOperator.to_function : FtsOperator → Str
  | .fts => "to_tsquery".data
  | .plain => "plainto_tsquery".data
  | .phrase => "phraseto_tsquery".data
  | .websearch => "websearch_to_tsquery".data

/-- `IsValue`. -/
inductive IsValue where
  | null | true | false | unknown
deriving DecidableEq

/-- `IsValue::to_sql`. -/
def IsValue.to_sql : IsValue → Str
  | .null => "NULL".data
  | .true => "TRUE".data
  | .false => "FALSE".data
  | .unknown => "UNKNOWN".data

/-- `Operation`. -/
inductive Operation where
  | simple (op : SimpleOperator) (value : Str)
  | quant (op : QuantOperator) (quantifier : Option OpQuantifier) (value : Str)
  | inList (values : List Str)
  | is (v : IsValue)
  | isDistinctFrom (value : Str)
  | ftsOp (op : FtsOperator) (language : Option Str) (value : Str)
deriving DecidableEq

/-- `OpExpr`. -/
structure OpExpr where
  negated : Bool
  operation : Operation
deriving DecidableEq

/-- `Filter`. -/
structure Filter where
  field : Field
  op_expr : OpExpr
deriving DecidableEq

/-- `LogicOperator`. -/
inductive LogicOperator where
  | and | or
deriving DecidableEq

/-- `LogicTree`. -/
inductive LogicTree where
  | expr (negated : Bool) (op : LogicOperator) (children : List LogicTree)
  | stmt (filter : Filter)

/-- `AggregateFunction`. -/
inductive AggregateFunction where
  | sum | avg | max | min | count
deriving DecidableEq

/-- `AggregateFunction::to_sql`. -/
def AggregateFunction.to_sql : AggregateFunction → Str
  | .sum => "SUM".data
  | .avg => "AVG".data
  | .max => "MAX".data
  | .min => "MIN".data
  | .count => "COUNT".data

/-- `JoinType` (default `Left`). -/
inductive JoinType where
  | inner | left
deriving DecidableEq

instance : Inhabited JoinType := ⟨JoinType.left⟩

/-- `SelectItem`. -/
inductive SelectItem where
  | field (field : Field) (aggregate : Option AggregateFunction)
      (aggregate_cast : Option Str) (cast : Option Str) (al : Option Str)
  | relation (relation : Str) (al : Option Str) (hint : Option Str)
      (join_type : Option JoinType)
  | spreadRelation (relation : Str) (hint : Option Str) (join_type : Option JoinType)
deriving DecidableEq

/-- `OrderDirection`. -/
inductive OrderDirection where
  | asc | desc
deriving DecidableEq

/-- `OrderNulls`. -/
inductive OrderNulls where
  | first | last
deriving DecidableEq

/-- `OrderTerm`. -/
inductive OrderTerm where
  | field (field : Field) (direction : Option OrderDirection) (nulls : Option OrderNulls)
  | relation (relation : Str) (field : Field) (direction : Option OrderDirection)
      (nulls : Option OrderNulls)
deriving DecidableEq

/-- `Range` (offset plus optional limit). -/
structure Range where
  offset : Int
  limit : Option Int
deriving DecidableEq

/-- `Range::default`. -/
def Range.default : Range := ⟨0, none⟩

/-- A minimal JSON value (integers model serde numbers; float payloads are
out of the embedded claims\' scope). -/
inductive Json where
  | null
  | bool (b : Bool)
  | num (n : Int)
  | str (s : Str)
  | arr (elems : List Json)
  | obj (fields : List (Str × Json))

/-- Model of `Payload`.  `ProcessedJson` carries the raw body text together
with its already-parsed value and top-level key set: the source stores raw
bytes and re-parses them in `extract_call_params`; since a `ProcessedJson`
payload has by construction been parsed once, the model carries that parse
result alongside the raw text. -/
inductive Payload where
  | processedJson (value : Json) (raw : Str) (keys : List Str)
  | processedUrlEncoded (data : List (Str × Str)) (keys : List Str)
  | rawJson (raw : Str)
  | rawPayload (raw : Str)

/-- `Mutation`. -/
inductive Mutation where
  | create | update | delete | singleUpsert
deriving DecidableEq

/-- `InvokeMethod`. -/
inductive InvokeMethod where
  | inv
  | invRead (headers_only : Bool)
deriving DecidableEq

/-- `Resource`. -/
inductive Resource where
  | relation (name : Str)
  | routine (name : Str)
  | schema
deriving DecidableEq

/-- `DbAction`. -/
inductive DbAction where
  | relationRead (qi : QualifiedIdentifier) (headers_only : Bool)
  | relationMut (qi : QualifiedIdentifier) (mutation : Mutation)
  | routine (qi : QualifiedIdentifier) (invoke_method : InvokeMethod)
  | schemaRead (schema : Str) (headers_only : Bool)
deriving DecidableEq

/-- `Action`. -/
inductive Action where
  | db (a : DbAction)
  | relationInfo (qi : QualifiedIdentifier)
  | routineInfo (qi : QualifiedIdentifier) (invoke_method : InvokeMethod)
  | schemaInfo
deriving DecidableEq

/-- `PreferResolution`. -/
inductive PreferResolution where
  | mergeDuplicates | ignoreDuplicates
deriving DecidableEq

/-- `PreferRepresentation` (default `None`). -/
inductive PreferRepresentation where
  | full | headersOnly | none
deriving DecidableEq

/-- `PreferCount`. -/
inductive PreferCount where
  | exact | planned | estimated
deriving DecidableEq

/-- `PreferTransaction` (default `Commit`). -/
inductive PreferTransaction where
  | commit | rollback
deriving DecidableEq

/-- `PreferMissing` (default `ApplyDefaults`). -/
inductive PreferMissing where
  | applyDefaults | applyNulls
deriving DecidableEq

/-- `PreferHandling` (default `Strict`). -/
inductive PreferHandling where
  | strict | lenient
deriving DecidableEq

/-- `Preferences`. -/
structure Preferences where
  resolution : Option PreferResolution
  representation : PreferRepresentation
  count : Option PreferCount
  transaction : PreferTransaction
  missing : PreferMissing
  handling : PreferHandling
  timezone : Option Str
  max_affected : Option Int
  invalid : List Str
deriving DecidableEq

/-- `Preferences::default`. -/
def Preferences.default : Preferences :=
  { resolution := none
    representation := .none
    count := none
    transaction := .commit
    missing := .applyDefaults
    handling := .strict
    timezone := none
    max_affected := none
    invalid := [] }

/-- `PreferRepresentation::needs_body` (`plan/mod.rs`). -/
def PreferRepresentation.needs_body : PreferRepresentation → Bool
  | .full => Bool.true
  | _ => Bool.false

/-- `EmbedPath`. -/
abbrev EmbedPath := List Str

/-- Model of `QueryParams`; the source\'s `HashMap`/`HashSet` fields are
association lists / lists here. -/
structure QueryParams where
  canonical : Str
  params : List (Str × Str)
  ranges : List (Str × Range)
  order : List (EmbedPath × List OrderTerm)
  logic : List (EmbedPath × LogicTree)
  columns : Option (List Str)
  select : List SelectItem
  filters : List (EmbedPath × Filter)
  filters_root : List Filter
  filter_fields : List Str
  on_conflict : Option (List Str)

/-- `QueryParams::default`. -/
def QueryParams.default : QueryParams :=
  { canonical := []
    params := []
    ranges := []
    order := []
    logic := []
    columns := none
    select := []
    filters := []
    filters_root := []
    filter_fields := []
    on_conflict := none }

/-- Model of `ApiRequest`, restricted to the fields consumed by the planner
and builder paths embedded here (the source additionally carries media
types, headers, cookies and raw method/path strings used only by the
response layer). -/
structure ApiRequest where
  action : Action
  schema : Str
  payload : Option Payload
  query_params : QueryParams
  preferences : Preferences
  top_level_range : Range

/-! ### Errors (`crates/postrust-core/src/error.rs`), restricted to the
variants produced by the embedded code paths. -/

/-- The error variants reachable in the embedded parser and planner code. -/
inductive Error where
  | invalidPath (msg : Str)
  | invalidQueryParam (msg : Str)
  | invalidBody (msg : Str)
  | unsupportedMethod (method : Str)
  | unknownColumn (name : Str)
  | tableNotFound (name : Str)
  | functionNotFound (name : Str)
  | columnNotFound (name : Str)
  | relationshipNotFound (name : Str)
  | internal (msg : Str)
deriving DecidableEq

/-! ### Schema cache (`crates/postrust-core/src/schema_cache/`) -/

/-- Association-list lookup, modelling `HashMap`/`IndexMap` access (keys in
a loaded cache are unique). -/
def assocLookup {κ α : Type} [DecidableEq κ] (k : κ) : List (κ × α) → Option α
  | [] => none
  | (k', v) :: rest => if k' = k then some v else assocLookup k rest

/-- `Column` (`schema_cache/table.rs`). -/
structure Column where
  name : Str
  description : Option Str
  nullable : Bool
  data_type : Str
  nominal_type : Str
  max_len : Option Int
  dfault : Option Str
  enum_values : List Str
  is_pk : Bool
  position : Int
deriving DecidableEq

/-- `Table`; the `IndexMap` of columns becomes an ordered association list. -/
structure Table where
  schema : Str
  name : Str
  description : Option Str
  is_view : Bool
  insertable : Bool
  updatable : Bool
  deletable : Bool
  pk_cols : List Str
  columns : List (Str × Column)
deriving DecidableEq

/-- `Table::get_column`. -/
def Table.get_column (t : Table) (name : Str) : Option Column :=
  assocLookup name t.columns

/-- `Table::has_column`. -/
def Table.has_column (t : Table) (name : Str) : Bool :=
  (t.get_column name).isSome

/-- `Table::qualified_identifier`. -/
def Table.qualified_identifier (t : Table) : QualifiedIdentifier :=
  ⟨t.schema, t.name⟩

/-- `Table::column_names`. -/
def Table.column_names (t : Table) : List Str :=
  t.columns.map Prod.fst

/-- `Junction` (`schema_cache/relationship.rs`). -/
structure Junction where
  table : QualifiedIdentifier
  constraint1 : Str
  constraint2 : Str
  source_columns : List (Str × Str)
  target_columns : List (Str × Str)
deriving DecidableEq

/-- `Cardinality`. -/
inductive Cardinality where
  | o2m (constr : Str) (columns : List (Str × Str))
  | m2o (constr : Str) (columns : List (Str × Str))
  | o2o (constr : Str) (columns : List (Str × Str)) (is_parent : Bool)
  | m2m (junction : Junction)
deriving DecidableEq

/-- `Relationship`. -/
inductive Relationship where
  | foreignKey (table : QualifiedIdentifier) (foreign_table : QualifiedIdentifier)
      (is_self : Bool) (cardinality : Cardinality) (table_is_view : Bool)
      (foreign_table_is_view : Bool) (constraint_name : Str)
  | computed (function : QualifiedIdentifier) (table : QualifiedIdentifier)
      (foreign_table : QualifiedIdentifier) (table_alias : QualifiedIdentifier)
      (to_one : Bool) (is_self : Bool)
deriving DecidableEq

/-- `Relationship::foreign_table`. -/
def Relationship.foreign_table : Relationship → QualifiedIdentifier
  | .foreignKey _ ft _ _ _ _ _ => ft
  | .computed _ _ ft _ _ _ => ft

/-- `RetType` (`schema_cache/routine.rs`). -/
inductive RetType where
  | single (t : Str)
  | setOf (t : Str)
  | table (cols : List (Str × Str))
  | void
deriving DecidableEq

/-- `RetType::is_set_returning`. -/
def RetType.is_set_returning : RetType → Bool
  | .setOf _ => Bool.true
  | .table _ => Bool.true
  | _ => Bool.false

/-- `RetType::type_name`. -/
def RetType.type_name : RetType → Option Str
  | .single t => some t
  | .setOf t => some t
  | .table _ => none
  | .void => none

/-- `FuncVolatility`. -/
inductive FuncVolatility where
  | immutable | stable | volatile
deriving DecidableEq

/-- The `format!("{:?}", volatility)` string of a volatility (derived
`Debug` rendering). -/
def FuncVolatility.debugStr : FuncVolatility → Str
  | .immutable => "Immutable".data
  | .stable => "Stable".data
  | .volatile => "Volatile".data

/-- `RoutineParam`. -/
structure RoutineParam where
  name : Str
  param_type : Str
  type_max_length : Str
  required : Bool
  variadic : Bool
deriving DecidableEq

/-- `Routine`. -/
structure Routine where
  schema : Str
  name : Str
  description : Option Str
  params : List RoutineParam
  return_type : RetType
  volatility : FuncVolatility
  has_variadic : Bool
  isolation_level : Option Str
  settings : List (Str × Str)
  is_procedure : Bool
deriving DecidableEq

/-- `Routine::qualified_identifier`. -/
def Routine.qualified_identifier (r : Routine) : QualifiedIdentifier :=
  ⟨r.schema, r.name⟩

/-- `Routine::is_safe_for_get` — defined in the source but never called on
the planning path. -/
def Routine.is_safe_for_get (r : Routine) : Bool :=
  match r.volatility with
  | .immutable => Bool.true
  | .stable => Bool.true
  | .volatile => Bool.false

/-- `SchemaCache` (`schema_cache/mod.rs`); hash maps become association
lists. -/
structure SchemaCache where
  tables : List (QualifiedIdentifier × Table)
  relationships : List ((QualifiedIdentifier × Str) × List Relationship)
  routines : List (QualifiedIdentifier × List Routine)
  timezones : List Str
  pg_version : Int
deriving DecidableEq

/-- `SchemaCache::get_table`. -/
def SchemaCache.get_table (c : SchemaCache) (qi : QualifiedIdentifier) : Option Table :=
  assocLookup qi c.tables

/-- `SchemaCache::require_table`. -/
def SchemaCache.require_table (c : SchemaCache) (qi : QualifiedIdentifier) :
    Except Error Table :=
  match c.get_table qi with
  | some t => .ok t
  | none => .error (.tableNotFound qi.toStr)

/-- `SchemaCache::get_relationships`. -/
def SchemaCache.get_relationships (c : SchemaCache) (qi : QualifiedIdentifier)
    (schema : Str) : Option (List Relationship) :=
  assocLookup (qi, schema) c.relationships

/-- `SchemaCache::get_routines`. -/
def SchemaCache.get_routines (c : SchemaCache) (qi : QualifiedIdentifier) :
    Option (List Routine) :=
  assocLookup qi c.routines

/-- `SchemaCache::find_relationship` (`schema_cache/mod.rs` lines 108-126):
the first relationship of the `(from, schema)` entry whose foreign table
name equals `to_name`. -/
def SchemaCache.find_relationship (c : SchemaCache) (from_ : QualifiedIdentifier)
    (to_name : Str) (schema : Str) : Option Relationship :=
  (c.get_relationships from_ schema).bind fun rels =>
    rels.find? fun r => decide (r.foreign_table.name = to_name)

/-! ### Plan types (`crates/postrust-core/src/plan/types.rs`) -/

/-- `CoercibleField`. -/
structure CoercibleField where
  name : Str
  json_path : JsonPath
  to_json : Bool
  to_tsvector : Option Str
  ir_type : Str
  base_type : Str
  transform : Option Str
  dfault : Option Str
  full_row : Bool
deriving DecidableEq

/-- `CoercibleField::simple`. -/
def CoercibleField.simple (name pg_type : Str) : CoercibleField :=
  { name := name
    json_path := []
    to_json := Bool.false
    to_tsvector := none
    ir_type := pg_type
    base_type := pg_type
    transform := none
    dfault := none
    full_row := Bool.false }

/-- `CoercibleField::from_field`. -/
def CoercibleField.from_field (f : Field) (pg_type : Str) : CoercibleField :=
  { name := f.name
    json_path := f.json_path
    to_json := Bool.false
    to_tsvector := none
    ir_type := pg_type
    base_type := pg_type
    transform := none
    dfault := none
    full_row := Bool.false }

/-- `CoercibleSelectField`. -/
structure CoercibleSelectField where
  field : CoercibleField
  aggregate : Option AggregateFunction
  aggregate_cast : Option Str
  cast : Option Str
  al : Option Str
deriving DecidableEq

/-- `CoercibleSelectField::simple`. -/
def CoercibleSelectField.simple (name pg_type : Str) : CoercibleSelectField :=
  { field := CoercibleField.simple name pg_type
    aggregate := none
    aggregate_cast := none
    cast := none
    al := none }

/-- `CoercibleFilter`. -/
structure CoercibleFilter where
  field : CoercibleField
  op_expr : OpExpr
deriving DecidableEq

/-- `CoercibleFilter::from_filter`. -/
def CoercibleFilter.from_filter (f : Filter) (pg_type : Str) : CoercibleFilter :=
  { field := CoercibleField.from_field f.field pg_type
    op_expr := f.op_expr }

/-- `CoercibleLogicTree`. -/
inductive CoercibleLogicTree where
  | expr (negated : Bool) (op : LogicOperator) (children : List CoercibleLogicTree)
  | stmt (filter : CoercibleFilter)
  | nullEmbed (negated : Bool) (field_name : Str)

mutual

/-- `CoercibleLogicTree::from_logic_tree`. -/
def CoercibleLogicTree.from_logic_tree (tree : LogicTree) (resolver : Str → Str) :
    CoercibleLogicTree :=
  match tree with
  | .expr negated op children =>
      .expr negated op (CoercibleLogicTree.from_logic_list children resolver)
  | .stmt filter =>
      .stmt (CoercibleFilter.from_filter filter (resolver filter.field.name))

/-- The recursive `map` over the children list of `from_logic_tree`,
split out so the recursion is structural. -/
def CoercibleLogicTree.from_logic_list (trees : List LogicTree)
    (resolver : Str → Str) : List CoercibleLogicTree :=
  match trees with
  | [] => []
  | t :: ts =>
      CoercibleLogicTree.from_logic_tree t resolver ::
        CoercibleLogicTree.from_logic_list ts resolver

end

/-- `CoercibleOrderTerm`. -/
structure CoercibleOrderTerm where
  field : CoercibleField
  direction : Option OrderDirection
  nulls : Option OrderNulls
  relation : Option Str
deriving DecidableEq

/-- `CoercibleOrderTerm::from_order_term`. -/
def CoercibleOrderTerm.from_order_term (term : OrderTerm) (pg_type : Str) :
    CoercibleOrderTerm :=
  match term with
  | .field f direction nulls =>
      { field := CoercibleField.from_field f pg_type
        direction := direction
        nulls := nulls
        relation := none }
  | .relation rel f direction nulls =>
      { field := CoercibleField.from_field f pg_type
        direction := direction
        nulls := nulls
        relation := some rel }

/-- `JoinCondition`. -/
structure JoinCondition where
  left : QualifiedIdentifier × Str
  right : QualifiedIdentifier × Str
deriving DecidableEq

/-- `RelSelectField`. -/
structure RelSelectField where
  name : Str
  agg_alias : Str
  join_type : JoinType
  is_spread : Bool
deriving DecidableEq

/-- `MutatePlan` (`plan/mutate_plan.rs`); bodies (`bytes::Bytes`) are
modelled as text. -/
inductive MutatePlan where
  | insert (target : QualifiedIdentifier) (columns : List CoercibleField)
      (body : Option Str) (on_conflict : Option (PreferResolution × List Str))
      (where_clauses : List CoercibleLogicTree) (returning : List Str)
      (pk_cols : List Str) (apply_defaults : Bool)
  | update (target : QualifiedIdentifier) (columns : List CoercibleField)
      (body : Option Str) (where_clauses : List CoercibleLogicTree)
      (returning : List Str) (apply_defaults : Bool)
  | delete (target : QualifiedIdentifier) (where_clauses : List CoercibleLogicTree)
      (returning : List Str)

/-- `ReadPlan` (`plan/read_plan.rs`). -/
structure ReadPlan where
  select : List CoercibleSelectField
  from_ : QualifiedIdentifier
  from_alias : Option Str
  where_clauses : List CoercibleLogicTree
  order : List CoercibleOrderTerm
  range : Range
  rel_name : Str
  rel_to_parent : Option Relationship
  rel_join_conds : List JoinCondition
  rel_join_type : Option JoinType
  rel_select : List RelSelectField
  depth : Nat

/-- `CallParams` (`plan/call_plan.rs`). -/
inductive CallParams where
  | named (ps : List (Str × Str))
  | positional (vs : List Str)
  | singleObject (body : Str)
  | none

/-- `CallPlan`. -/
structure CallPlan where
  function : QualifiedIdentifier
  params : CallParams
  returns_scalar : Bool
  returns_set : Bool
  volatility : Str

/-! ### SQL statement builders (`crates/postrust-sql`) -/

/-- The `for (i, x) in xs.enumerate { if i > 0 { push(sep) } … }` loop
pattern shared by the statement builders: fold `xs` into the fragment,
inserting `sep` before every element except the first. -/
def pushSepList {α : Type} (f : SqlFragment) (sep : Str) (xs : List α)
    (g : SqlFragment → α → SqlFragment) : SqlFragment :=
  (xs.foldl (fun (acc : SqlFragment × Bool) x =>
    (g (if acc.2 then acc.1 else acc.1.push sep) x, false)) (f, true)).1

/-- `OnConflict` (`insert.rs`). -/
inductive OnConflict where
  | doNothing
  | doUpdate (columns : List Str) (set : List (Str × SqlFragment))
      (where_clause : Option SqlFragment)

/-- `InsertBuilder` (`insert.rs`). -/
structure InsertBuilder where
  table : Option SqlFragment
  columns : List Str
  values : List (List SqlFragment)
  on_conflict : Option OnConflict
  returning : List SqlFragment

namespace InsertBuilder

/-- `InsertBuilder::new`/`default`. -/
def new : InsertBuilder := ⟨none, [], [], none, []⟩

/-- `InsertBuilder::into_table`. -/
def into_table (b : InsertBuilder) (qi : QualifiedIdentifier) : InsertBuilder :=
  { b with table := some (SqlFragment.raw (from_qi qi)) }

/-- `InsertBuilder::columns`. -/
def withColumns (b : InsertBuilder) (cols : List Str) : InsertBuilder :=
  { b with columns := cols }

/-- `InsertBuilder::on_conflict_do_nothing`. -/
def on_conflict_do_nothing (b : InsertBuilder) : InsertBuilder :=
  { b with on_conflict := some .doNothing }

/-- `InsertBuilder::on_conflict_do_update`. -/
def on_conflict_do_update (b : InsertBuilder) (conflict_columns : List Str)
    (set : List (Str × SqlFragment)) : InsertBuilder :=
  { b with on_conflict := some (.doUpdate conflict_columns set none) }

/-- `InsertBuilder::returning`. -/
def withReturning (b : InsertBuilder) (column : Str) : InsertBuilder :=
  { b with returning := b.returning ++ [SqlFragment.raw (escape_ident column)] }

/-- `InsertBuilder::build` (`insert.rs` lines 100-189). -/
def build (b : InsertBuilder) : SqlFragment :=
  let result := SqlFragment.new.push "INSERT INTO ".data
  let result := match b.table with
    | some t => result.append t
    | none => result
  let result :=
    if b.columns ≠ [] then
      ((pushSepList (result.push " (".data) ", ".data b.columns
        (fun f c => f.push (escape_ident c))).push ")".data)
    else result
  let result :=
    if b.values ≠ [] then
      pushSepList (result.push " VALUES ".data) ", ".data b.values
        (fun f row =>
          (pushSepList (f.push "(".data) ", ".data row
            (fun f v => f.append v)).push ")".data)
    else result.push " DEFAULT VALUES".data
  let result := match b.on_conflict with
    | some .doNothing => result.push " ON CONFLICT DO NOTHING".data
    | some (.doUpdate cols set where_clause) =>
      let r := (pushSepList (result.push " ON CONFLICT (".data) ", ".data cols
        (fun f c => f.push (escape_ident c))).push ") DO UPDATE SET ".data
      let r := pushSepList r ", ".data set
        (fun f cv => ((f.push (escape_ident cv.1)).push " = ".data).append cv.2)
      match where_clause with
      | some w => (r.push " WHERE ".data).append w
      | none => r
    | none => result
  if b.returning ≠ [] then
    pushSepList (result.push " RETURNING ".data) ", ".data b.returning
      (fun f r => f.append r)
  else result

end InsertBuilder

/-- `UpdateBuilder` (`update.rs`). -/
structure UpdateBuilder where
  table : Option SqlFragment
  set : List (Str × SqlFragment)
  where_clauses : List SqlFragment
  returning : List SqlFragment

namespace UpdateBuilder

/-- `UpdateBuilder::new`/`default`. -/
def new : UpdateBuilder := ⟨none, [], [], []⟩

/-- `UpdateBuilder::table`. -/
def withTable (b : UpdateBuilder) (qi : QualifiedIdentifier) : UpdateBuilder :=
  { b with table := some (SqlFragment.raw (from_qi qi)) }

/-- `UpdateBuilder::build`. -/
def build (b : UpdateBuilder) : SqlFragment :=
  let result := SqlFragment.new.push "UPDATE ".data
  let result := match b.table with
    | some t => result.append t
    | none => result
  let result :=
    if b.set ≠ [] then
      pushSepList (result.push " SET ".data) ", ".data b.set
        (fun f cv => ((f.push (escape_ident cv.1)).push " = ".data).append cv.2)
    else result
  let result :=
    if b.where_clauses ≠ [] then
      pushSepList (result.push " WHERE ".data) " AND ".data b.where_clauses
        (fun f w => f.append w)
    else result
  if b.returning ≠ [] then
    pushSepList (result.push " RETURNING ".data) ", ".data b.returning
      (fun f r => f.append r)
  else result

end UpdateBuilder

/-- `DeleteBuilder` (`delete.rs`). -/
structure DeleteBuilder where
  table : Option SqlFragment
  using_ : List SqlFragment
  where_clauses : List SqlFragment
  returning : List SqlFragment

namespace DeleteBuilder

/-- `DeleteBuilder::new`/`default`. -/
def new : DeleteBuilder := ⟨none, [], [], []⟩

/-- `DeleteBuilder::from_table`. -/
def from_table (b : DeleteBuilder) (qi : QualifiedIdentifier) : DeleteBuilder :=
  { b with table := some (SqlFragment.raw (from_qi qi)) }

/-- `DeleteBuilder::where_raw`. -/
def where_raw (b : DeleteBuilder) (sql : SqlFragment) : DeleteBuilder :=
  { b with where_clauses := b.where_clauses ++ [sql] }

/-- `DeleteBuilder::returning`. -/
def withReturning (b : DeleteBuilder) (column : Str) : DeleteBuilder :=
  { b with returning := b.returning ++ [SqlFragment.raw (escape_ident column)] }

/-- `DeleteBuilder::build`. -/
def build (b : DeleteBuilder) : SqlFragment :=
  let result := SqlFragment.new.push "DELETE FROM ".data
  let result := match b.table with
    | some t => result.append t
    | none => result
  let result :=
    if b.using_ ≠ [] then
      pushSepList (result.push " USING ".data) ", ".data b.using_
        (fun f t => f.append t)
    else result
  let result :=
    if b.where_clauses ≠ [] then
      pushSepList (result.push " WHERE ".data) " AND ".data b.where_clauses
        (fun f w => f.append w)
    else result
  if b.returning ≠ [] then
    pushSepList (result.push " RETURNING ".data) ", ".data b.returning
      (fun f r => f.append r)
  else result

end DeleteBuilder

/-! ### Query builder (`crates/postrust-core/src/query/builder.rs`).
The source functions return `Result`, but every arm embedded here returns
`Ok`, so the models are total functions on the fragment. -/

/-- `QueryBuilder::build_filter` (lines 140-206). -/
def build_filter (filter : CoercibleFilter) : SqlFragment :=
  let frag := SqlFragment.new.push (escape_ident filter.field.name)
  let frag := if filter.op_expr.negated then frag.push " NOT".data else frag
  match filter.op_expr.operation with
  | .simple op value =>
      (((frag.push " ".data).push op.to_sql).push " ".data).push_param (.text value)
  | .quant op quantifier value =>
      let frag := ((frag.push " ".data).push op.to_sql).push " ".data
      match quantifier with
      | some q =>
          let frag := match q with
            | .any => frag.push "ANY(".data
            | .all => frag.push "ALL(".data
          (frag.push_param (.text value)).push ")".data
      | none => frag.push_param (.text value)
  | .inList values =>
      (pushSepList (frag.push " IN (".data) ", ".data values
        (fun f v => f.push_param (.text v))).push ")".data
  | .is v => (frag.push " IS ".data).push v.to_sql
  | .isDistinctFrom value =>
      (frag.push " IS DISTINCT FROM ".data).push_param (.text value)
  | .ftsOp op language value =>
      let frag := ((frag.push " @@ ".data).push op.to_function).push "(".data
      let frag := match language with
        | some lang => (frag.push_param (.text lang)).push ", ".data
        | none => frag
      (frag.push_param (.text value)).push ")".data

mutual

/-- `QueryBuilder::build_logic_tree` (lines 102-137). -/
def build_logic_tree : CoercibleLogicTree → SqlFragment
  | .expr negated op children =>
      let sep := match op with
        | .and => " AND ".data
        | .or => " OR ".data
      let combined := (SqlFragment.join sep (build_logic_list children)).parens
      if negated then (SqlFragment.raw "NOT ".data).append combined else combined
  | .stmt filter => build_filter filter
  | .nullEmbed negated field_name =>
      let frag := SqlFragment.new.push (escape_ident field_name)
      if negated then frag.push " IS NOT NULL".data else frag.push " IS NULL".data

/-- The recursive `map` over the children list of `build_logic_tree`,
split out so the recursion is structural. -/
def build_logic_list : List CoercibleLogicTree → List SqlFragment
  | [] => []
  | t :: ts => build_logic_tree t :: build_logic_list ts

end

/-- `QueryBuilder::build_mutate` (lines 230-385).  The Insert arm with a
body returns early with the bare `json_populate_recordset` SELECT; the
Update arm with a body builds the `SET` list by binding the whole body and
the column name per column. -/
def build_mutate : MutatePlan → SqlFragment
  | .insert target columns body on_conflict _ returning _ _ =>
      let qi := target
      let builder := (InsertBuilder.new.into_table qi).withColumns
        (columns.map fun c => c.name)
      match body with
      | some body_str =>
          ((((SqlFragment.new.push "SELECT * FROM json_populate_recordset(NULL::".data).push
            (from_qi qi)).push ", ".data).push_param (.text body_str)).push "::json)".data
      | none =>
          let builder := match on_conflict with
            | some rescols =>
                match rescols.1 with
                | .ignoreDuplicates => builder.on_conflict_do_nothing
                | .mergeDuplicates =>
                    let set_cols := columns.map fun (c : CoercibleField) =>
                      (c.name, (SqlFragment.new.push "EXCLUDED.".data).push
                        (escape_ident c.name))
                    builder.on_conflict_do_update rescols.2 set_cols
            | none => builder
          let builder := returning.foldl (fun b col => b.withReturning col) builder
          builder.build
  | .update target columns body where_clauses returning _ =>
      let qi := target
      let builder := UpdateBuilder.new.withTable qi
      match body with
      | some body_str =>
          let frag := ((SqlFragment.new.push "UPDATE ".data).push
            (from_qi qi)).push " SET ".data
          let frag := pushSepList frag ", ".data columns fun f col =>
            (((((f.push (escape_ident col.name)).push " = (".data).push_param
              (.text body_str)).push "::json->>".data).push_param
              (.text col.name)).push (")::".data ++ col.ir_type)
          let frag :=
            if where_clauses.isEmpty then frag
            else
              pushSepList (frag.push " WHERE ".data) " AND ".data where_clauses
                (fun f clause => f.append (build_logic_tree clause))
          if returning ≠ [] then
            pushSepList (frag.push " RETURNING ".data) ", ".data returning
              (fun f col => f.push (escape_ident col))
          else frag
      | none => builder.build
  | .delete target where_clauses returning =>
      let builder := DeleteBuilder.new.from_table target
      let builder := where_clauses.foldl
        (fun b clause => b.where_raw (build_logic_tree clause)) builder
      let builder := returning.foldl (fun b col => b.withReturning col) builder
      builder.build

/-- `QueryBuilder::build_call` (lines 388-428). -/
def build_call (plan : CallPlan) : SqlFragment :=
  let qi := plan.function
  let frag := ((SqlFragment.new.push "SELECT * FROM ".data).push (from_qi qi)).push "(".data
  let frag := match plan.params with
    | .named ps => pushSepList frag ", ".data ps
        (fun f kv => ((f.push (escape_ident kv.1)).push " => ".data).push_param (.text kv.2))
    | .positional vs => pushSepList frag ", ".data vs (fun f v => f.push_param (.text v))
    | .singleObject body => frag.push_param (.text body)
    | .none => frag
  frag.push ")".data

/-! ### JSON helpers for RPC parameter extraction -/

/-- Whether `needle` occurs as a contiguous subsequence of `hay`, as
Rust\'s `str::contains`. -/
def containsSeq (hay needle : Str) : Bool :=
  match hay with
  | [] => List.isPrefixOf needle []
  | _ :: rest => List.isPrefixOf needle hay || containsSeq rest needle

/-- Join a list of texts with a separator. -/
def joinSep (sep : Str) : List Str → Str
  | [] => []
  | [x] => x
  | x :: xs => x ++ sep ++ joinSep sep xs

/-- Decimal rendering of an integer. -/
def intToStr (n : Int) : Str :=
  if n < 0 then '-' :: natDigits n.natAbs else natDigits n.toNat

mutual

/-- Serialisation of a JSON value, as `serde_json`\'s `to_string` (string
escaping simplified to plain quoting; no such value reaches the embedded
claims). -/
def jsonRender : Json → Str
  | .null => "null".data
  | .bool b => if b then "true".data else "false".data
  | .num n => intToStr n
  | .str s => '"' :: (s ++ ['"'])
  | .arr elems => '[' :: (jsonRenderList elems ++ [']'])
  | .obj fields => '{' :: (jsonRenderObj fields ++ ['}'])

/-- Render a JSON array\'s elements, comma separated. -/
def jsonRenderList : List Json → Str
  | [] => []
  | [x] => jsonRender x
  | x :: xs => jsonRender x ++ ',' :: jsonRenderList xs

/-- Render a JSON object\'s fields, comma separated. -/
def jsonRenderObj : List (Str × Json) → Str
  | [] => []
  | [kv] => '"' :: (kv.1 ++ '"' :: ':' :: jsonRender kv.2)
  | kv :: kvs => ('"' :: (kv.1 ++ '"' :: ':' :: jsonRender kv.2)) ++ ',' :: jsonRenderObj kvs

end

/-- The value-to-string conversion of `extract_call_params` for named JSON
parameters: strings verbatim, null as the empty string, everything else
serialised. -/
def jsonValueToParamStr : Json → Str
  | .str s => s
  | .null => []
  | other => jsonRender other

/-! ### Planner (`crates/postrust-core/src/plan/`) -/

/-- The column-type resolver closure of `build_where_clauses`,
`build_mutation_where` and `build_order_terms`: the column\'s declared type,
or `text` for names not found in the table. -/
def tableTypeResolver (table : Table) (name : Str) : Str :=
  ((table.get_column name).map Column.data_type).getD "text".data

/-- `build_select_fields` (`read_plan.rs` lines 106-148): empty select
means all columns; otherwise each named field must exist in the table,
else `ColumnNotFound`; relation items are skipped here. -/
def build_select_fields (items : List SelectItem) (table : Table) :
    Except Error (List CoercibleSelectField) :=
  if items = [] then
    .ok (table.columns.map fun nc => CoercibleSelectField.simple nc.1 nc.2.data_type)
  else go items
where
  go : List SelectItem → Except Error (List CoercibleSelectField)
  | [] => .ok []
  | .field f agg aggCast cast al :: rest =>
      match table.get_column f.name with
      | Option.none => .error (.columnNotFound f.name)
      | some col =>
          (go rest).map fun fs =>
            { field := CoercibleField.from_field f col.data_type
              aggregate := agg
              aggregate_cast := aggCast
              cast := cast
              al := al } :: fs
  | .relation _ _ _ _ :: rest => go rest
  | .spreadRelation _ _ _ :: rest => go rest

/-- `build_where_clauses` (`read_plan.rs` lines 150-180): root filters (with
the `text` fallback type) followed by the root-path logic trees; it never
fails. -/
def build_where_clauses (request : ApiRequest) (table : Table) :
    Except Error (List CoercibleLogicTree) :=
  let clauses := request.query_params.filters_root.map fun filter =>
    CoercibleLogicTree.stmt
      (CoercibleFilter.from_filter filter (tableTypeResolver table filter.field.name))
  let clauses := clauses ++
    ((request.query_params.logic.filter fun pt => pt.1 = []).map fun pt =>
      CoercibleLogicTree.from_logic_tree pt.2 (tableTypeResolver table))
  .ok clauses

/-- `build_order_terms` (`read_plan.rs` lines 182-208): root-path order
terms with the `text` fallback type; it never fails. -/
def build_order_terms (request : ApiRequest) (table : Table) :
    Except Error (List CoercibleOrderTerm) :=
  .ok ((request.query_params.order.filter fun p => p.1 = []).flatMap fun p =>
    p.2.map fun term =>
      let field_name := match term with
        | .field f _ _ => f.name
        | .relation _ f _ _ => f.name
      CoercibleOrderTerm.from_order_term term (tableTypeResolver table field_name))

/-- `build_relation_selects` (`read_plan.rs` lines 210-259): each relation
item must resolve through `find_relationship`, else `RelationshipNotFound`;
the hint is ignored. -/
def build_relation_selects (items : List SelectItem) (table : Table)
    (schema_cache : SchemaCache) : Except Error (List RelSelectField) :=
  go items
where
  go : List SelectItem → Except Error (List RelSelectField)
  | [] => .ok []
  | .relation relation al _hint join_type :: rest =>
      match schema_cache.find_relationship table.qualified_identifier relation
        table.schema with
      | Option.none => .error (.relationshipNotFound relation)
      | some _ =>
          (go rest).map fun rs =>
            { name := relation
              agg_alias := al.getD ("pgrst_".data ++ relation)
              join_type := join_type.getD JoinType.left
              is_spread := Bool.false } :: rs
  | .spreadRelation relation _hint join_type :: rest =>
      match schema_cache.find_relationship table.qualified_identifier relation
        table.schema with
      | Option.none => .error (.relationshipNotFound relation)
      | some _ =>
          (go rest).map fun rs =>
            { name := relation
              agg_alias := "pgrst_spread_".data ++ relation
              join_type := join_type.getD JoinType.left
              is_spread := Bool.true } :: rs
  | .field _ _ _ _ _ :: rest => go rest

/-- `ReadPlan::from_request` (`read_plan.rs` lines 41-75). -/
def ReadPlan.from_request (request : ApiRequest) (table : Table)
    (schema_cache : SchemaCache) : Except Error ReadPlan := do
  let qi := table.qualified_identifier
  let select ← build_select_fields request.query_params.select table
  let where_clauses ← build_where_clauses request table
  let order ← build_order_terms request table
  let rel_select ← build_relation_selects request.query_params.select table schema_cache
  .ok { select := select
        from_ := qi
        from_alias := Option.none
        where_clauses := where_clauses
        order := order
        range := request.top_level_range
        rel_name := table.name
        rel_to_parent := Option.none
        rel_join_conds := []
        rel_join_type := Option.none
        rel_select := rel_select
        depth := 0 }

/-- `ReadPlan::for_mutation` (`read_plan.rs` lines 77-87). -/
def ReadPlan.for_mutation (request : ApiRequest) (table : Table)
    (schema_cache : SchemaCache) : Except Error ReadPlan := do
  let plan ← ReadPlan.from_request request table schema_cache
  .ok { plan with from_alias := some "pgrst_mutation_result".data }

/-- `get_payload_columns` (`mutate_plan.rs` lines 194-215): every payload
key must name a table column, else `UnknownColumn`; payload kinds without
a key set yield no columns. -/
def get_payload_columns (request : ApiRequest) (table : Table) :
    Except Error (List CoercibleField) :=
  match request.payload with
  | some (.processedJson _ _ keys) => go table keys
  | some (.processedUrlEncoded _ keys) => go table keys
  | _ => .ok []
where
  go : Table → List Str → Except Error (List CoercibleField)
  | _, [] => .ok []
  | table, key :: rest =>
      match table.get_column key with
      | Option.none => .error (.unknownColumn key)
      | some column =>
          (go table rest).map fun cs => CoercibleField.simple key column.data_type :: cs

/-- A JSON object rendering of form-data pairs, for `get_body_bytes` on
url-encoded payloads (the source serialises a `HashMap`, whose iteration
order is unspecified; the model keeps the given order). -/
def jsonEncodePairs (data : List (Str × Str)) : Str :=
  '{' :: (joinSep [','] (data.map fun kv =>
    '"' :: (kv.1 ++ '"' :: ':' :: '"' :: (kv.2 ++ ['"'])))) ++ ['}']

/-- `get_body_bytes` (`mutate_plan.rs` lines 217-232). -/
def get_body_bytes (request : ApiRequest) : Except Error (Option Str) :=
  match request.payload with
  | some (.processedJson _ raw _) => .ok (some raw)
  | some (.rawJson raw) => .ok (some raw)
  | some (.rawPayload raw) => .ok (some raw)
  | some (.processedUrlEncoded data _) => .ok (some (jsonEncodePairs data))
  | Option.none => .ok Option.none

/-- `get_returning_columns` (`mutate_plan.rs` lines 234-242). -/
def get_returning_columns (request : ApiRequest) (table : Table) : List Str :=
  if request.preferences.representation.needs_body then table.column_names
  else table.pk_cols

/-- `build_mutation_where` (`mutate_plan.rs` lines 244-266): only the root
filters, with the `text` fallback type; it never fails. -/
def build_mutation_where (request : ApiRequest) (table : Table) :
    Except Error (List CoercibleLogicTree) :=
  .ok (request.query_params.filters_root.map fun filter =>
    CoercibleLogicTree.stmt
      (CoercibleFilter.from_filter filter (tableTypeResolver table filter.field.name)))

/-- `MutatePlan::create_insert`. -/
def MutatePlan.create_insert (request : ApiRequest) (table : Table)
    (qi : QualifiedIdentifier) : Except Error MutatePlan := do
  let columns ← get_payload_columns request table
  let body ← get_body_bytes request
  let returning := get_returning_columns request table
  let apply_defaults := decide (request.preferences.missing = PreferMissing.applyDefaults)
  let on_conflict := request.query_params.on_conflict.map fun cols =>
    (request.preferences.resolution.getD PreferResolution.mergeDuplicates, cols)
  .ok (.insert qi columns body on_conflict [] returning table.pk_cols apply_defaults)

/-- `MutatePlan::create_update`. -/
def MutatePlan.create_update (request : ApiRequest) (table : Table)
    (qi : QualifiedIdentifier) : Except Error MutatePlan := do
  let columns ← get_payload_columns request table
  let body ← get_body_bytes request
  let where_clauses ← build_mutation_where request table
  let returning := get_returning_columns request table
  let apply_defaults := decide (request.preferences.missing = PreferMissing.applyDefaults)
  .ok (.update qi columns body where_clauses returning apply_defaults)

/-- `MutatePlan::create_delete`. -/
def MutatePlan.create_delete (request : ApiRequest) (table : Table)
    (qi : QualifiedIdentifier) : Except Error MutatePlan := do
  let where_clauses ← build_mutation_where request table
  let returning := get_returning_columns request table
  .ok (.delete qi where_clauses returning)

/-- `MutatePlan::create_upsert`. -/
def MutatePlan.create_upsert (request : ApiRequest) (table : Table)
    (qi : QualifiedIdentifier) : Except Error MutatePlan := do
  let columns ← get_payload_columns request table
  let body ← get_body_bytes request
  let returning := get_returning_columns request table
  let on_conflict := some (PreferResolution.mergeDuplicates, table.pk_cols)
  .ok (.insert qi columns body on_conflict [] returning table.pk_cols Bool.true)

/-- `MutatePlan::from_request` (`mutate_plan.rs` lines 59-74). -/
def MutatePlan.from_request (request : ApiRequest) (table : Table)
    (mutation : Mutation) : Except Error MutatePlan :=
  let qi := table.qualified_identifier
  match mutation with
  | .create => MutatePlan.create_insert request table qi
  | .update => MutatePlan.create_update request table qi
  | .delete => MutatePlan.create_delete request table qi
  | .singleUpsert => MutatePlan.create_upsert request table qi

/-- `extract_call_params` (`call_plan.rs` lines 61-115).  For a
`ProcessedJson` payload the source re-parses the raw bytes; the model uses
the parse result carried by the payload (see `Payload`). -/
def extract_call_params (request : ApiRequest) (_routine : Routine) :
    Except Error CallParams :=
  match request.payload with
  | some (.processedJson value raw _) =>
      match value with
      | .obj fields => .ok (.named (fields.map fun kv => (kv.1, jsonValueToParamStr kv.2)))
      | .arr _ => .ok (.singleObject raw)
      | _ => .ok (.singleObject raw)
  | some (.processedUrlEncoded data _) => .ok (.named data)
  | some (.rawJson raw) => .ok (.singleObject raw)
  | some (.rawPayload raw) => .ok (.singleObject raw)
  | Option.none =>
      if request.query_params.params ≠ [] then .ok (.named request.query_params.params)
      else .ok .none

/-- `CallPlan::from_request` (`call_plan.rs` lines 36-53): no volatility
check anywhere; the volatility is only recorded as its `Debug` string. -/
def CallPlan.from_request (request : ApiRequest) (routine : Routine) :
    Except Error CallPlan := do
  let qi := routine.qualified_identifier
  let params ← extract_call_params request routine
  let returns_scalar := !routine.return_type.is_set_returning &&
    (match routine.return_type.type_name with
     | some t => containsSeq t "record".data = Bool.false
     | Option.none => Bool.true)
  .ok { function := qi
        params := params
        returns_scalar := returns_scalar
        returns_set := routine.return_type.is_set_returning
        volatility := routine.volatility.debugStr }

/-- `ReadPlanTree`. -/
inductive ReadPlanTree where
  | mk (root : ReadPlan) (children : List ReadPlanTree)

/-- `ReadPlanTree::leaf`. -/
def ReadPlanTree.leaf (plan : ReadPlan) : ReadPlanTree := ⟨plan, []⟩

/-- `InfoPlan`. -/
inductive InfoPlan where
  | relationInfo (qi : QualifiedIdentifier)
  | routineInfo (qi : QualifiedIdentifier)
  | openApiSpec

/-- `DbActionPlan`. -/
inductive DbActionPlan where
  | read (tree : ReadPlanTree)
  | mutateRead (mutate : MutatePlan) (readPart : Option ReadPlanTree)
  | call (callPart : CallPlan) (readPart : Option ReadPlanTree)

/-- `ActionPlan`. -/
inductive ActionPlan where
  | db (p : DbActionPlan)
  | info (p : InfoPlan)

/-- `create_db_plan` (`plan/mod.rs` lines 81-132).  The Routine arm ignores
the invoke method entirely: no volatility check is performed.  The
`SchemaRead` arm is `unreachable!()` in the source (it is filtered out by
`create_action_plan`); the model returns an internal error there. -/
def create_db_plan (request : ApiRequest) (action : DbAction)
    (schema_cache : SchemaCache) : Except Error DbActionPlan :=
  match action with
  | .relationRead qi _ => do
      let table ← schema_cache.require_table qi
      let read_plan ← ReadPlan.from_request request table schema_cache
      .ok (.read (ReadPlanTree.leaf read_plan))
  | .relationMut qi mutation => do
      let table ← schema_cache.require_table qi
      let mutate_plan ← MutatePlan.from_request request table mutation
      let read_plan ←
        if request.preferences.representation.needs_body then do
          let rp ← ReadPlan.for_mutation request table schema_cache
          pure (some (ReadPlanTree.leaf rp))
        else pure Option.none
      .ok (.mutateRead mutate_plan read_plan)
  | .routine qi _ => do
      let routines ←
        match schema_cache.get_routines qi with
        | some rs => pure rs
        | Option.none => Except.error (Error.functionNotFound qi.toStr)
      let routine ←
        match routines.head? with
        | some r => pure r
        | Option.none => Except.error (Error.functionNotFound qi.toStr)
      let call_plan ← CallPlan.from_request request routine
      .ok (.call call_plan Option.none)
  | .schemaRead _ _ =>
      .error (.internal "unreachable: SchemaRead handled in create_action_plan".data)

/-- `create_action_plan` (`plan/mod.rs` lines 61-78). -/
def create_action_plan (request : ApiRequest) (schema_cache : SchemaCache) :
    Except Error ActionPlan :=
  match request.action with
  | .db db_action =>
      match db_action with
      | .schemaRead _ _ => .ok (.info .openApiSpec)
      | _ => (create_db_plan request db_action schema_cache).map ActionPlan.db
  | .relationInfo qi => .ok (.info (.relationInfo qi))
  | .routineInfo qi _ => .ok (.info (.routineInfo qi))
  | .schemaInfo => .ok (.info .openApiSpec)

/-! ### Method/resource dispatch (`api_request/mod.rs`) -/

/-- HTTP methods (`http::Method`): the named standard methods matched by
`parse_action`, the remaining standard ones, and extensions. -/
inductive Method where
  | get | head | post | patch | put | delete | options | trace | connect
  | other (s : Str)
deriving DecidableEq

/-- The `Display`/`to_string` form of a method. -/
def Method.toStr : Method → Str
  | .get => "GET".data
  | .head => "HEAD".data
  | .post => "POST".data
  | .patch => "PATCH".data
  | .put => "PUT".data
  | .delete => "DELETE".data
  | .options => "OPTIONS".data
  | .trace => "TRACE".data
  | .connect => "CONNECT".data
  | .other s => s

/-- `parse_action` (`api_request/mod.rs` lines 131-194). -/
def parse_action (method : Method) (resource : Resource) (schema : Str) :
    Except Error Action :=
  match method, resource with
  | .get, .schema => .ok (.db (.schemaRead schema Bool.false))
  | .head, .schema => .ok (.db (.schemaRead schema Bool.true))
  | .options, .schema => .ok .schemaInfo
  | .get, .relation name => .ok (.db (.relationRead ⟨schema, name⟩ Bool.false))
  | .head, .relation name => .ok (.db (.relationRead ⟨schema, name⟩ Bool.true))
  | .post, .relation name => .ok (.db (.relationMut ⟨schema, name⟩ .create))
  | .patch, .relation name => .ok (.db (.relationMut ⟨schema, name⟩ .update))
  | .put, .relation name => .ok (.db (.relationMut ⟨schema, name⟩ .singleUpsert))
  | .delete, .relation name => .ok (.db (.relationMut ⟨schema, name⟩ .delete))
  | .options, .relation name => .ok (.relationInfo ⟨schema, name⟩)
  | .get, .routine name =>
      .ok (.db (.routine ⟨schema, name⟩ (.invRead Bool.false)))
  | .head, .routine name =>
      .ok (.db (.routine ⟨schema, name⟩ (.invRead Bool.true)))
  | .post, .routine name => .ok (.db (.routine ⟨schema, name⟩ .inv))
  | .options, .routine name => .ok (.routineInfo ⟨schema, name⟩ .inv)
  | _, _ => .error (.unsupportedMethod method.toStr)

/-- The method-by-resource table of specification §4.3, written from the
spec\'s words: row by method, column by resource kind, every combination
outside the table an `UnsupportedMethod` error.  `parse_action` is claimed
to implement exactly this table. -/
def specActionTable (method : Method) (resource : Resource) (schema : Str) :
    Except Error Action :=
  match method with
  | .get =>
      match resource with
      | .schema => .ok (.db (.schemaRead schema Bool.false))
      | .relation name => .ok (.db (.relationRead ⟨schema, name⟩ Bool.false))
      | .routine name => .ok (.db (.routine ⟨schema, name⟩ (.invRead Bool.false)))
  | .head =>
      match resource with
      | .schema => .ok (.db (.schemaRead schema Bool.true))
      | .relation name => .ok (.db (.relationRead ⟨schema, name⟩ Bool.true))
      | .routine name => .ok (.db (.routine ⟨schema, name⟩ (.invRead Bool.true)))
  | .post =>
      match resource with
      | .schema => .error (.unsupportedMethod "POST".data)
      | .relation name => .ok (.db (.relationMut ⟨schema, name⟩ .create))
      | .routine name => .ok (.db (.routine ⟨schema, name⟩ .inv))
  | .patch =>
      match resource with
      | .relation name => .ok (.db (.relationMut ⟨schema, name⟩ .update))
      | _ => .error (.unsupportedMethod "PATCH".data)
  | .put =>
      match resource with
      | .relation name => .ok (.db (.relationMut ⟨schema, name⟩ .singleUpsert))
      | _ => .error (.unsupportedMethod "PUT".data)
  | .delete =>
      match resource with
      | .relation name => .ok (.db (.relationMut ⟨schema, name⟩ .delete))
      | _ => .error (.unsupportedMethod "DELETE".data)
  | .options =>
      match resource with
      | .schema => .ok .schemaInfo
      | .relation name => .ok (.relationInfo ⟨schema, name⟩)
      | .routine name => .ok (.routineInfo ⟨schema, name⟩ .inv)
  | m => .error (.unsupportedMethod m.toStr)

/-! ### Prefer-header parsing (`api_request/preferences.rs`) -/

/-- Rust `str::trim`: strip whitespace from both ends (the source uses
Unicode white space; ASCII white space suffices for all header values the
claims exercise). -/
def trimStr (s : Str) : Str :=
  ((s.dropWhile Char.isWhitespace).reverse.dropWhile Char.isWhitespace).reverse

/-- Rust `str::trim_matches(c)`: strip every leading and trailing `c`. -/
def trimMatchesChar (c : Char) (s : Str) : Str :=
  ((s.dropWhile (· = c)).reverse.dropWhile (· = c)).reverse

/-- Rust `str::split_once(c)`: split at the first occurrence of `c`, or
`none` when `c` does not occur. -/
def splitOnceChar (c : Char) : Str → Option (Str × Str)
  | [] => none
  | a :: rest =>
      if a = c then some ([], rest)
      else (splitOnceChar c rest).map fun p => (a :: p.1, p.2)

/-- Rust `str::parse::<i64>()`: optional sign, one or more ASCII digits,
within the i64 range. -/
def parseI64 (s : Str) : Option Int :=
  let digits := fun (ds : Str) =>
    if ds ≠ [] ∧ ds.all Char.isDigit then some (digitsToNat ds) else none
  match s with
  | '+' :: ds =>
      (digits ds).bind fun n =>
        if n ≤ 2 ^ 63 - 1 then some (n : Int) else none
  | '-' :: ds =>
      (digits ds).bind fun n =>
        if n ≤ 2 ^ 63 then some (-(n : Int)) else none
  | ds =>
      (digits ds).bind fun n =>
        if n ≤ 2 ^ 63 - 1 then some (n : Int) else none

/-- `parse_preference` (`preferences.rs` lines 25-113): apply one
comma-separated Prefer entry to the accumulated preferences. -/
def parse_preference (prefs : Preferences) (pref : Str) : Preferences :=
  let pref := trimStr pref
  match splitOnceChar '=' pref with
  | some kv =>
      let key := trimStr kv.1
      let value := trimMatchesChar '"' (trimStr kv.2)
      if key = "resolution".data then
        { prefs with resolution :=
            if value = "merge-duplicates".data then some .mergeDuplicates
            else if value = "ignore-duplicates".data then some .ignoreDuplicates
            else none }
      else if key = "return".data then
        { prefs with representation :=
            if value = "representation".data then .full
            else if value = "headers-only".data then .headersOnly
            else if value = "minimal".data then .none
            else .none }
      else if key = "count".data then
        { prefs with count :=
            if value = "exact".data then some .exact
            else if value = "planned".data then some .planned
            else if value = "estimated".data then some .estimated
            else none }
      else if key = "tx".data then
        { prefs with transaction :=
            if value = "commit".data then .commit
            else if value = "rollback".data then .rollback
            else .commit }
      else if key = "missing".data then
        { prefs with missing :=
            if value = "default".data then .applyDefaults
            else if value = "null".data then .applyNulls
            else .applyDefaults }
      else if key = "handling".data then
        { prefs with handling :=
            if value = "strict".data then .strict
            else if value = "lenient".data then .lenient
            else .strict }
      else if key = "timezone".data then
        { prefs with timezone := some value }
      else if key = "max-affected".data then
        match parseI64 value with
        | some n => { prefs with max_affected := some n }
        | none => prefs
      else
        { prefs with invalid := prefs.invalid ++ [pref] }
  | none =>
      if pref = "return=representation".data then { prefs with representation := .full }
      else if pref = "return=headers-only".data then
        { prefs with representation := .headersOnly }
      else if pref = "return=minimal".data then { prefs with representation := .none }
      else if pref = "count=exact".data then { prefs with count := some .exact }
      else if pref = "count=planned".data then { prefs with count := some .planned }
      else if pref = "count=estimated".data then { prefs with count := some .estimated }
      else if pref = "resolution=merge-duplicates".data then
        { prefs with resolution := some .mergeDuplicates }
      else if pref = "resolution=ignore-duplicates".data then
        { prefs with resolution := some .ignoreDuplicates }
      else if pref = "tx=commit".data then { prefs with transaction := .commit }
      else if pref = "tx=rollback".data then { prefs with transaction := .rollback }
      else if pref = "params=single-object".data then prefs
      else if pref = "params=multiple-objects".data then prefs
      else { prefs with invalid := prefs.invalid ++ [pref] }

/-- Split a text at every occurrence of `c` (Rust `str::split(c)`):
splitting the empty text yields one empty piece. -/
def splitChar (c : Char) : Str → List Str
  | [] => [[]]
  | a :: rest =>
      match splitChar c rest with
      | [] => [[]]
      | s :: ss => if a = c then [] :: s :: ss else (a :: s) :: ss

/-- `parse_preferences` (`preferences.rs` lines 10-23), taking the Prefer
header text (already decoded; `none` when the header is absent): split on
commas, trim, and fold `parse_preference` over the entries. -/
def parse_preferences (prefer : Option Str) : Preferences :=
  match prefer with
  | none => Preferences.default
  | some v =>
      ((splitChar ',' v).map trimStr).foldl parse_preference Preferences.default

/-! ### Query-string canonicalisation (`api_request/query_params.rs`) -/

/-- Lexicographic comparison of texts by character code, as Rust\'s `Ord`
for `&str` (byte order and code-point order agree on UTF-8). -/
def lexLe : Str → Str → Bool
  | [], _ => Bool.true
  | _ :: _, [] => Bool.false
  | a :: as_, b :: bs =>
      if a.toNat < b.toNat then Bool.true
      else if b.toNat < a.toNat then Bool.false
      else lexLe as_ bs

/-- One `key=value` pair of the query string: `splitn(2, '=')` with the
value defaulting to the empty text. -/
def splitPairEq (s : Str) : Str × Str :=
  match splitOnceChar '=' s with
  | some kv => kv
  | none => (s, [])

/-- The `key=value` pairs of a query string (`query_params.rs` lines
29-34). -/
def queryPairs (query : Str) : List (Str × Str) :=
  (splitChar '&' query).map splitPairEq

/-- The stable by-key sort of the pairs (`pairs.sort_by_key(|(k, _)| *k)`;
Rust\'s `sort_by_key` is a stable sort, as is insertion sort). -/
def sortPairs (ps : List (Str × Str)) : List (Str × Str) :=
  List.insertionSort (fun p q => lexLe p.1 q.1 = Bool.true) ps

/-- The `canonical` field computed by `parse_query_params`
(`query_params.rs` lines 20-41): the empty query keeps the default empty
canonical form; otherwise the pairs are sorted by key (stably) and
re-joined as `k=v` with `&`.  Later per-key parsing can still fail, which
discards the whole `QueryParams`; the canonical form is computed before
that. -/
def queryCanonical (query : Str) : Str :=
  if query = [] then []
  else joinSep "&".data ((sortPairs (queryPairs query)).map fun kv =>
    kv.1 ++ '=' :: kv.2)

/-! ### Shared concrete fixtures (the `users` table of specification §8) -/

/-- A column of the `users` fixture table. -/
def mkColumn (name ty : Str) (nullable is_pk : Bool) (position : Int) : Column :=
  { name := name
    description := none
    nullable := nullable
    data_type := ty
    nominal_type := ty
    max_len := none
    dfault := none
    enum_values := []
    is_pk := is_pk
    position := position }

/-- The `users(id int PK, name text, age int, deleted_at timestamptz null)`
table of specification §8. -/
def usersTable : Table :=
  { schema := "public".data
    name := "users".data
    description := none
    is_view := Bool.false
    insertable := Bool.true
    updatable := Bool.true
    deletable := Bool.true
    pk_cols := ["id".data]
    columns := [
      ("id".data, mkColumn "id".data "int".data Bool.false Bool.true 1),
      ("name".data, mkColumn "name".data "text".data Bool.true Bool.false 2),
      ("age".data, mkColumn "age".data "int".data Bool.true Bool.false 3),
      ("deleted_at".data,
        mkColumn "deleted_at".data "timestamptz".data Bool.true Bool.false 4)] }

/-- `ApiRequest::default`. -/
def ApiRequest.default : ApiRequest :=
  { action := .schemaInfo
    schema := []
    payload := none
    query_params := QueryParams.default
    preferences := Preferences.default
    top_level_range := Range.default }

/-- A schema cache with no tables, relationships or routines. -/
def emptyCache : SchemaCache := ⟨[], [], [], [], 150000⟩

/-! ### Parameter bookkeeping lemmas for the builders -/

theorem foldl_sep_params {α : Type} (sep : Str) (g : SqlFragment → α → SqlFragment)
    (h : α → List SqlParam) (hg : ∀ f x, (g f x).params = f.params ++ h x) :
    ∀ (xs : List α) (acc : SqlFragment × Bool),
      ((xs.foldl (fun (acc : SqlFragment × Bool) x =>
        (g (if acc.2 then acc.1 else acc.1.push sep) x, false)) acc).1).params =
        acc.1.params ++ xs.flatMap h := by
  intro xs
  induction xs with
  | nil => intro acc; simp
  | cons x xs ih =>
    intro acc
    simp only [List.foldl_cons, List.flatMap_cons]
    rw [ih]
    have hstep : (g (if acc.2 then acc.1 else acc.1.push sep) x).params =
        acc.1.params ++ h x := by
      rw [hg]
      by_cases hb : acc.2 <;> simp [hb, SqlFragment.push]
    rw [hstep, List.append_assoc]

theorem pushSepList_params {α : Type} (f : SqlFragment) (sep : Str) (xs : List α)
    (g : SqlFragment → α → SqlFragment) (h : α → List SqlParam)
    (hg : ∀ f x, (g f x).params = f.params ++ h x) :
    (pushSepList f sep xs g).params = f.params ++ xs.flatMap h := by
  unfold pushSepList
  exact foldl_sep_params sep g h hg xs (f, true)

theorem pushSepList_params_const {α : Type} (f : SqlFragment) (sep : Str) (xs : List α)
    (g : SqlFragment → α → SqlFragment) (hg : ∀ f x, (g f x).params = f.params) :
    (pushSepList f sep xs g).params = f.params := by
  have hflat : xs.flatMap (fun _ => ([] : List SqlParam)) = [] := by
    induction xs with
    | nil => rfl
    | cons x xs ih => simp [List.flatMap_cons, ih]
  have := pushSepList_params f sep xs g (fun _ => []) (fun f x => by rw [hg]; simp)
  rw [this, hflat, List.append_nil]

/-- C9.  `parse_action` implements exactly the method-by-resource table of
specification §4.3: the tabulated combinations yield the tabulated actions
and every other combination fails with `UnsupportedMethod`. -/
theorem claim_C9_method_resource_matrix :
    ∀ (m : Method) (r : Resource) (schema : Str),
      parse_action m r schema = specActionTable m r schema := by
  intro m r schema
  cases m <;> cases r <;> rfl

/-- C2 (the claim is right, the code is a stub).  For every insert plan
that carries a JSON body, `build_mutate` returns early with the bare
`SELECT * FROM json_populate_recordset(NULL::<target>, $1::json)`
fragment: no `INSERT INTO`, no column list, no `ON CONFLICT` and no
`RETURNING` are emitted, contradicting the claimed statement shape. -/
theorem claim_C2_insert_body_builds_bare_select :
    ∀ (target : QualifiedIdentifier) (columns : List CoercibleField) (body : Str)
      (oc : Option (PreferResolution × List Str)) (wh : List CoercibleLogicTree)
      (ret : List Str) (pk : List Str) (ad : Bool),
      build_mutate (.insert target columns (some body) oc wh ret pk ad) =
        { sql := "SELECT * FROM json_populate_recordset(NULL::".data ++
            (from_qi target ++ ", $1::json)".data)
          params := [SqlParam.text body] } := by
  intro target columns body oc wh ret pk ad
  simp only [build_mutate, SqlFragment.push, SqlFragment.push_param, SqlFragment.new,
    List.nil_append, List.append_assoc]
  simp +decide [natDigits, natDigitsGo]

theorem update_set_loop_params (f : SqlFragment) (b : Str) (cols : List CoercibleField) :
    (pushSepList f ", ".data cols (fun f col =>
      (((((f.push (escape_ident col.name)).push " = (".data).push_param
        (SqlParam.text b)).push "::json->>".data).push_param
        (SqlParam.text col.name)).push (")::".data ++ col.ir_type))).params =
      f.params ++ cols.flatMap (fun c => [SqlParam.text b, SqlParam.text c.name]) :=
  pushSepList_params _ _ _ _ _
    (by intro f c; simp [SqlFragment.push, SqlFragment.push_param])

theorem where_loop_params (f : SqlFragment) (wh : List CoercibleLogicTree) :
    (pushSepList f " AND ".data wh
      (fun f clause => f.append (build_logic_tree clause))).params =
      f.params ++ wh.flatMap (fun w => (build_logic_tree w).params) :=
  pushSepList_params _ _ _ _ _ (by intro f w; simp [SqlFragment.append])

theorem returning_loop_params (f : SqlFragment) (ret : List Str) :
    (pushSepList f ", ".data ret (fun f col => f.push (escape_ident col))).params =
      f.params :=
  pushSepList_params_const _ _ _ _ (by intro f c; rfl)

/-- The JSON body of scenario S4 in specification §8. -/
def bodyS4 : Str := "\x7b\"name\":\"Bob\"\x7d".data

/-- The parsed request of scenario S4: `PATCH /users?id=eq.5` with body
`\x7b"name":"Bob"\x7d`. -/
def reqS4 : ApiRequest :=
  { action := .db (.relationMut ⟨"public".data, "users".data⟩ .update)
    schema := "public".data
    payload := some (.processedJson (.obj [("name".data, .str "Bob".data)])
      bodyS4 ["name".data])
    query_params := { QueryParams.default with
      filters_root := [⟨Field.simple "id".data,
        ⟨Bool.false, .quant .equal none "5".data⟩⟩]
      filter_fields := ["id".data] }
    preferences := Preferences.default
    top_level_range := Range.default }

/-- C3, counterexample to the claim as stated: for the S4 request the
built update does not carry the claimed parameter list
`[body, "5"]` — the body is re-bound for every `SET` column and the column
name is bound as a parameter of its own. -/
theorem claim_C3_counterexample :
    (MutatePlan.from_request reqS4 usersTable Mutation.update).map
        (fun p => (build_mutate p).params) ≠
      Except.ok [SqlParam.text bodyS4, SqlParam.text "5".data] := by
  decide

/-- C3 (amended).  For every update plan with a JSON body the builder
binds the whole body once per `SET` column and additionally binds each
column name as a parameter (`SET "c" = ($i::json->>$i+1)::<type>`),
followed by the parameters of the `WHERE` clauses; the S4 request
therefore builds
`UPDATE "public"."users" SET "name" = ($1::json->>$2)::text WHERE "id" = $3
RETURNING "id"` with parameters `[body, "name", "5"]`. -/
theorem claim_C3_update_binds_body_per_column :
    (∀ (target : QualifiedIdentifier) (cols : List CoercibleField) (b : Str)
        (wh : List CoercibleLogicTree) (ret : List Str) (ad : Bool),
      (build_mutate (.update target cols (some b) wh ret ad)).params =
        cols.flatMap (fun c => [SqlParam.text b, SqlParam.text c.name]) ++
          wh.flatMap (fun w => (build_logic_tree w).params)) ∧
    (MutatePlan.from_request reqS4 usersTable Mutation.update).map build_mutate =
      Except.ok
        { sql := ("UPDATE \"public\".\"users\" SET \"name\" = " ++
            "($1::json->>$2)::text WHERE \"id\" = $3 RETURNING \"id\"").data
          params := [SqlParam.text bodyS4, SqlParam.text "name".data,
            SqlParam.text "5".data] } := by
  constructor
  · intro target cols b wh ret ad
    simp only [build_mutate]
    by_cases hwh : wh.isEmpty
    · rw [if_pos hwh]
      have hwhnil : wh = [] := List.isEmpty_iff.mp hwh
      by_cases hret : ret ≠ []
      · rw [if_pos hret, returning_loop_params]
        show (SqlFragment.push _ _).params = _
        rw [SqlFragment.push, update_set_loop_params]
        simp [SqlFragment.push, SqlFragment.new, hwhnil]
      · rw [if_neg hret, update_set_loop_params]
        simp [SqlFragment.push, SqlFragment.new, hwhnil]
    · rw [if_neg hwh]
      by_cases hret : ret ≠ []
      · rw [if_pos hret, returning_loop_params]
        show (SqlFragment.push _ _).params = _
        rw [SqlFragment.push, where_loop_params]
        show (SqlFragment.push _ _).params ++ _ = _
        rw [SqlFragment.push, update_set_loop_params]
        simp [SqlFragment.push, SqlFragment.new]
      · rw [if_neg hret, where_loop_params]
        show (SqlFragment.push _ _).params ++ _ = _
        rw [SqlFragment.push, update_set_loop_params]
        simp [SqlFragment.push, SqlFragment.new]
  · decide

/-! ### Claim C4: column validation -/

theorem isOk_map {ε α β : Type} (f : α → β) (e : Except ε α) :
    (Except.map f e).isOk = e.isOk := by
  cases e <;> rfl

theorem payload_go_isOk_false (table : Table) (keys : List Str) (k : Str)
    (hk : k ∈ keys) (hnone : table.get_column k = Option.none) :
    (get_payload_columns.go table keys).isOk = Bool.false := by
  induction keys with
  | nil => cases hk
  | cons k2 rest ih =>
      cases hg2 : table.get_column k2 with
      | none => simp only [get_payload_columns.go, hg2]; rfl
      | some col =>
          rcases List.mem_cons.mp hk with rfl | h2
          · rw [hg2] at hnone; exact Option.noConfusion hnone
          · simp only [get_payload_columns.go, hg2]
            rw [isOk_map]
            exact ih h2

theorem select_go_isOk_false (table : Table) (items : List SelectItem)
    (f : Field) (agg : Option AggregateFunction) (aggCast cast al : Option Str)
    (hmem : SelectItem.field f agg aggCast cast al ∈ items)
    (hnone : table.get_column f.name = Option.none) :
    (build_select_fields.go table items).isOk = Bool.false := by
  induction items with
  | nil => cases hmem
  | cons it rest ih =>
      cases it with
      | field f2 agg2 ac2 c2 al2 =>
          cases hg2 : table.get_column f2.name with
          | none => simp only [build_select_fields.go, hg2]; rfl
          | some col =>
              rcases List.mem_cons.mp hmem with heq | h2
              · cases heq
                rw [hg2] at hnone
                exact Option.noConfusion hnone
              · simp only [build_select_fields.go, hg2]
                rw [isOk_map]
                exact ih h2
      | relation r al2 hi jt =>
          rcases List.mem_cons.mp hmem with heq | h2
          · exact SelectItem.noConfusion heq
          · simp only [build_select_fields.go]
            exact ih h2
      | spreadRelation r hi jt =>
          rcases List.mem_cons.mp hmem with heq | h2
          · exact SelectItem.noConfusion heq
          · simp only [build_select_fields.go]
            exact ih h2

/-- The filter `nonexistent=eq.7`, naming a column absent from `users`. -/
def filterUnknown : Filter :=
  ⟨Field.simple "nonexistent".data, ⟨Bool.false, .quant .equal none "7".data⟩⟩

/-- `DELETE /users?nonexistent=eq.7`: a delete request filtering on a
column that does not exist in the `users` table. -/
def reqDelUnknown : ApiRequest :=
  { ApiRequest.default with
    action := .db (.relationMut ⟨"public".data, "users".data⟩ .delete)
    schema := "public".data
    query_params := { QueryParams.default with
      filters_root := [filterUnknown]
      filter_fields := ["nonexistent".data] } }

/-- A POST payload whose single key `bogus` names no `users` column. -/
def reqPayloadBad : ApiRequest :=
  { ApiRequest.default with
    action := .db (.relationMut ⟨"public".data, "users".data⟩ .create)
    schema := "public".data
    payload := some (.processedJson (.obj [("bogus".data, .str "x".data)])
      "\x7b\"bogus\":\"x\"\x7d".data ["bogus".data]) }

/-- C4, counterexample to the claim as stated: `users` has no column
`nonexistent`, yet a DELETE filtering on it plans successfully and builds
SQL that references the unknown column (typed with the `text` fallback) —
filter fields are never validated against the table's columns. -/
theorem claim_C4_counterexample :
    usersTable.get_column "nonexistent".data = Option.none ∧
    Except.map build_mutate
        (MutatePlan.from_request reqDelUnknown usersTable Mutation.delete) =
      Except.ok
        { sql := ("DELETE FROM \"public\".\"users\" WHERE \"nonexistent\"" ++
            " = $1 RETURNING \"id\"").data
          params := [SqlParam.text "7".data] } := by
  decide

/-- C4 (amended).  Payload keys are validated against the table's columns
(`UnknownColumn`) and explicitly selected fields are validated too
(`ColumnNotFound`), but filter and order fields are not: building the
where clauses and order terms never fails, and an unknown field name
silently falls back to the `text` type. -/
theorem claim_C4_column_validation_payload_select_only :
    (∀ (request : ApiRequest) (table : Table) (v : Json) (raw : Str)
        (keys : List Str) (k : Str),
      request.payload = some (.processedJson v raw keys) → k ∈ keys →
      table.get_column k = Option.none →
      (get_payload_columns request table).isOk = Bool.false) ∧
    (∀ (items : List SelectItem) (table : Table) (f : Field)
        (agg : Option AggregateFunction) (aggCast cast al : Option Str),
      SelectItem.field f agg aggCast cast al ∈ items →
      table.get_column f.name = Option.none →
      (build_select_fields items table).isOk = Bool.false) ∧
    (∀ (request : ApiRequest) (table : Table),
      (build_where_clauses request table).isOk = Bool.true ∧
      (build_order_terms request table).isOk = Bool.true) ∧
    (∀ (table : Table) (name : Str),
      table.get_column name = Option.none →
      tableTypeResolver table name = "text".data) := by
  refine ⟨?_, ?_, ?_, ?_⟩
  · intro request table v raw keys k hp hk hnone
    simp only [get_payload_columns, hp]
    exact payload_go_isOk_false table keys k hk hnone
  · intro items table f agg aggCast cast al hmem hnone
    have hne : ¬ items = [] := by
      intro h
      rw [h] at hmem
      cases hmem
    simp only [build_select_fields, if_neg hne]
    exact select_go_isOk_false table items f agg aggCast cast al hmem hnone
  · intro request table
    exact ⟨rfl, rfl⟩
  · intro table name hnone
    simp [tableTypeResolver, hnone]

/-- Witness for C4 on the §8 fixtures: the `bogus` payload key and a
select of `nonexistent` both fail, and `nonexistent` resolves to the
`text` fallback type. -/
theorem claim_C4_witness :
    (get_payload_columns reqPayloadBad usersTable).isOk = Bool.false ∧
    (build_select_fields
      [SelectItem.field (Field.simple "nonexistent".data) none none none none]
      usersTable).isOk = Bool.false ∧
    tableTypeResolver usersTable "nonexistent".data = "text".data :=
  ⟨claim_C4_column_validation_payload_select_only.1 reqPayloadBad usersTable
      (.obj [("bogus".data, .str "x".data)]) "\x7b\"bogus\":\"x\"\x7d".data
      ["bogus".data] "bogus".data rfl (by decide) (by decide),
    claim_C4_column_validation_payload_select_only.2.1
      [SelectItem.field (Field.simple "nonexistent".data) none none none none]
      usersTable (Field.simple "nonexistent".data) none none none none
      (by decide) (by decide),
    claim_C4_column_validation_payload_select_only.2.2.2 usersTable
      "nonexistent".data (by decide)⟩

/-! ### Claim C5: embedding ambiguity -/

theorem find_first {α : Type} (p : α → Bool) :
    ∀ (l : List α) (a : α), a ∈ l → p a = true →
      ∃ b pre post, l.find? p = some b ∧ p b = true ∧
        l = pre ++ b :: post ∧ ∀ x ∈ pre, p x = Bool.false := by
  intro l
  induction l with
  | nil => intro a ha; cases ha
  | cons x xs ih =>
      intro a ha hpa
      cases hp : p x with
      | true =>
          refine ⟨x, [], xs, ?_, hp, rfl, by intro y hy; cases hy⟩
          simp [List.find?, hp]
      | false =>
          rcases List.mem_cons.mp ha with rfl | h2
          · rw [hpa] at hp; exact Bool.noConfusion hp
          · obtain ⟨b, pre, post, hfind, hpb, heq, hpre⟩ := ih a h2 hpa
            refine ⟨b, x :: pre, post, ?_, hpb, by rw [heq]; rfl, ?_⟩
            · simp [List.find?, hp, hfind]
            · intro y hy
              rcases List.mem_cons.mp hy with rfl | hy2
              · exact hp
              · exact hpre y hy2

/-- The `users → orders` relationship through `orders.user_id`. -/
def relOrders1 : Relationship :=
  .foreignKey ⟨"public".data, "users".data⟩ ⟨"public".data, "orders".data⟩
    Bool.false (.o2m "orders_user_id_fkey".data [("id".data, "user_id".data)])
    Bool.false Bool.false "orders_user_id_fkey".data

/-- A second, distinct `users → orders` relationship through
`orders.billed_user`. -/
def relOrders2 : Relationship :=
  .foreignKey ⟨"public".data, "users".data⟩ ⟨"public".data, "orders".data⟩
    Bool.false (.o2m "orders_billed_user_fkey".data
      [("id".data, "billed_user".data)])
    Bool.false Bool.false "orders_billed_user_fkey".data

/-- A schema cache where `users` has two relationships to `orders`. -/
def cacheTwoRels : SchemaCache :=
  { tables := [(⟨"public".data, "users".data⟩, usersTable)]
    relationships := [((⟨"public".data, "users".data⟩, "public".data),
      [relOrders1, relOrders2])]
    routines := []
    timezones := []
    pg_version := 150000 }

/-- C5, counterexample to the claim as stated: two distinct relationships
from `users` both match the foreign-table name `orders`, yet
`find_relationship` silently returns the first and embedding planning
succeeds — no ambiguity error exists anywhere in the code. -/
theorem claim_C5_counterexample :
    relOrders1 ≠ relOrders2 ∧
    (relOrders1.foreign_table.name = "orders".data ∧
      relOrders2.foreign_table.name = "orders".data) ∧
    cacheTwoRels.find_relationship ⟨"public".data, "users".data⟩
      "orders".data "public".data = some relOrders1 ∧
    (build_relation_selects [.relation "orders".data none none none]
      usersTable cacheTwoRels).isOk = Bool.true := by
  decide

/-- C5 (amended).  Whenever at least one relationship of the cache entry
for `(from, schema)` matches the requested foreign-table name,
`find_relationship` succeeds and returns the first matching relationship
in entry order — even if several match; there is no `EmbeddingAmbiguous`
error. -/
theorem claim_C5_first_match_without_ambiguity_error
    (c : SchemaCache) (from_ : QualifiedIdentifier) (to_name schema : Str)
    (rels : List Relationship) (r : Relationship)
    (hget : c.get_relationships from_ schema = some rels)
    (hmem : r ∈ rels) (hname : r.foreign_table.name = to_name) :
    ∃ r2 pre post, c.find_relationship from_ to_name schema = some r2 ∧
      r2.foreign_table.name = to_name ∧ rels = pre ++ r2 :: post ∧
      ∀ x ∈ pre, x.foreign_table.name ≠ to_name := by
  obtain ⟨b, pre, post, hfind, hpb, heq, hpre⟩ :=
    find_first (fun r => decide (r.foreign_table.name = to_name)) rels r hmem
      (decide_eq_true hname)
  refine ⟨b, pre, post, ?_, of_decide_eq_true hpb, heq, ?_⟩
  · unfold SchemaCache.find_relationship
    rw [hget]
    exact hfind
  · intro x hx
    have := hpre x hx
    exact of_decide_eq_false this

/-- Witness for C5: on the two-relationship cache the amended theorem
instantiates with the first relationship and an empty unmatched prefix. -/
theorem claim_C5_witness :
    ∃ r2 pre post,
      cacheTwoRels.find_relationship ⟨"public".data, "users".data⟩
        "orders".data "public".data = some r2 ∧
      r2.foreign_table.name = "orders".data ∧
      [relOrders1, relOrders2] = pre ++ r2 :: post ∧
      ∀ x ∈ pre, x.foreign_table.name ≠ "orders".data :=
  claim_C5_first_match_without_ambiguity_error cacheTwoRels
    ⟨"public".data, "users".data⟩ "orders".data "public".data
    [relOrders1, relOrders2] relOrders2 rfl (by decide) (by decide)

/-! ### Claim C6: volatility and GET -/

theorem extract_call_params_ok (request : ApiRequest) (routine : Routine) :
    ∃ ps, extract_call_params request routine = Except.ok ps := by
  unfold extract_call_params
  cases request.payload with
  | none =>
      by_cases h : request.query_params.params ≠ []
      · rw [if_pos h]; exact ⟨_, rfl⟩
      · rw [if_neg h]; exact ⟨_, rfl⟩
  | some p =>
      cases p with
      | processedJson v raw keys => cases v <;> exact ⟨_, rfl⟩
      | processedUrlEncoded d keys => exact ⟨_, rfl⟩
      | rawJson raw => exact ⟨_, rfl⟩
      | rawPayload raw => exact ⟨_, rfl⟩

theorem CallPlan_from_request_eq (request : ApiRequest) (routine : Routine)
    (ps : CallParams) (hps : extract_call_params request routine = Except.ok ps) :
    CallPlan.from_request request routine = Except.ok
      { function := routine.qualified_identifier
        params := ps
        returns_scalar := !routine.return_type.is_set_returning &&
          (match routine.return_type.type_name with
           | some t => containsSeq t "record".data = Bool.false
           | Option.none => Bool.true)
        returns_set := routine.return_type.is_set_returning
        volatility := routine.volatility.debugStr } := by
  simp only [CallPlan.from_request, hps]
  rfl

/-- A volatile routine `public.do_thing()`. -/
def volatileRoutine : Routine :=
  { schema := "public".data
    name := "do_thing".data
    description := none
    params := []
    return_type := .void
    volatility := .volatile
    has_variadic := Bool.false
    isolation_level := none
    settings := []
    is_procedure := Bool.false }

/-- A schema cache holding only the volatile routine. -/
def cacheVolatile : SchemaCache :=
  { tables := []
    relationships := []
    routines := [(⟨"public".data, "do_thing".data⟩, [volatileRoutine])]
    timezones := []
    pg_version := 150000 }

/-- `GET /rpc/do_thing`. -/
def reqRpcGet : ApiRequest :=
  { ApiRequest.default with
    action := .db (.routine ⟨"public".data, "do_thing".data⟩
      (.invRead Bool.false))
    schema := "public".data }

/-- C6, counterexample to the claim as stated: `GET /rpc/do_thing`
dispatches to a read-invoke of the volatile routine, and planning
succeeds, recording the volatility merely as the string `Volatile` — the
call is not rejected. -/
theorem claim_C6_counterexample :
    volatileRoutine.volatility = FuncVolatility.volatile ∧
    parse_action .get (.routine "do_thing".data) "public".data =
      .ok (.db (.routine ⟨"public".data, "do_thing".data⟩
        (.invRead Bool.false))) ∧
    Except.map
        (fun p => match p with
          | DbActionPlan.call cp _ => some cp.volatility
          | _ => Option.none)
        (create_db_plan reqRpcGet
          (.routine ⟨"public".data, "do_thing".data⟩ (.invRead Bool.false))
          cacheVolatile) =
      Except.ok (some "Volatile".data) := by
  decide

/-- C6 (amended).  Call planning performs no volatility check at all:
for every request and every routine — volatile ones included —
`CallPlan::from_request` succeeds, recording the volatility only as its
`Debug` string; the helper `is_safe_for_get` (false exactly for volatile
routines) is never consulted on this path. -/
theorem claim_C6_no_volatility_check :
    (∀ (request : ApiRequest) (routine : Routine),
      ∃ cp, CallPlan.from_request request routine = Except.ok cp ∧
        cp.volatility = routine.volatility.debugStr) ∧
    Routine.is_safe_for_get volatileRoutine = Bool.false := by
  constructor
  · intro request routine
    obtain ⟨ps, hps⟩ := extract_call_params_ok request routine
    exact ⟨_, CallPlan_from_request_eq request routine ps hps, rfl⟩
  · rfl

/-! ### Claim C8: canonicalisation of query strings -/

theorem char_toNat_inj {a b : Char} (h : a.toNat = b.toNat) : a = b :=
  Char.eq_of_val_eq (UInt32.eq_of_val_eq (Fin.eq_of_val_eq h))

theorem lexLe_total : ∀ (a b : Str), lexLe a b = Bool.true ∨ lexLe b a = Bool.true := by
  intro a
  induction a with
  | nil => intro b; exact Or.inl rfl
  | cons x xs ih =>
      intro b
      cases b with
      | nil => exact Or.inr rfl
      | cons y ys =>
          simp only [lexLe]
          by_cases h1 : x.toNat < y.toNat
          · left; rw [if_pos h1]
          · by_cases h2 : y.toNat < x.toNat
            · right; rw [if_pos h2]
            · rw [if_neg h1, if_neg h2, if_neg h2, if_neg h1]
              exact ih ys

theorem lexLe_trans : ∀ (a b c : Str), lexLe a b = Bool.true →
    lexLe b c = Bool.true → lexLe a c = Bool.true := by
  intro a
  induction a with
  | nil => intro b c _ _; rfl
  | cons x xs ih =>
      intro b c hab hbc
      cases b with
      | nil => exact absurd hab (by simp [lexLe])
      | cons y ys =>
          cases c with
          | nil => exact absurd hbc (by simp [lexLe])
          | cons z zs =>
              simp only [lexLe] at hab hbc ⊢
              by_cases hxy : x.toNat < y.toNat
              · by_cases hyz : y.toNat < z.toNat
                · rw [if_pos (by omega : x.toNat < z.toNat)]
                · by_cases hzy : z.toNat < y.toNat
                  · rw [if_neg hyz, if_pos hzy] at hbc
                    exact Bool.noConfusion hbc
                  · rw [if_pos (by omega : x.toNat < z.toNat)]
              · by_cases hyx : y.toNat < x.toNat
                · rw [if_neg hxy, if_pos hyx] at hab
                  exact Bool.noConfusion hab
                · rw [if_neg hxy, if_neg hyx] at hab
                  by_cases hyz : y.toNat < z.toNat
                  · rw [if_pos (by omega : x.toNat < z.toNat)]
                  · by_cases hzy : z.toNat < y.toNat
                    · rw [if_neg hyz, if_pos hzy] at hbc
                      exact Bool.noConfusion hbc
                    · rw [if_neg hyz, if_neg hzy] at hbc
                      rw [if_neg (by omega : ¬ x.toNat < z.toNat),
                        if_neg (by omega : ¬ z.toNat < x.toNat)]
                      exact ih ys zs hab hbc

theorem lexLe_antisymm : ∀ (a b : Str), lexLe a b = Bool.true →
    lexLe b a = Bool.true → a = b := by
  intro a
  induction a with
  | nil =>
      intro b hab hba
      cases b with
      | nil => rfl
      | cons y ys => exact absurd hba (by simp [lexLe])
  | cons x xs ih =>
      intro b hab hba
      cases b with
      | nil => exact absurd hab (by simp [lexLe])
      | cons y ys =>
          simp only [lexLe] at hab hba
          by_cases hxy : x.toNat < y.toNat
          · rw [if_neg (by omega : ¬ y.toNat < x.toNat), if_pos hxy] at hba
            exact Bool.noConfusion hba
          · by_cases hyx : y.toNat < x.toNat
            · rw [if_neg hxy, if_pos hyx] at hab
              exact Bool.noConfusion hab
            · rw [if_neg hxy, if_neg hyx] at hab
              rw [if_neg hyx, if_neg hxy] at hba
              rw [char_toNat_inj (by omega : x.toNat = y.toNat), ih ys hab hba]

instance : IsTotal (Str × Str) fun p q => lexLe p.1 q.1 = Bool.true :=
  ⟨fun a b => lexLe_total a.1 b.1⟩

instance : IsTrans (Str × Str) fun p q => lexLe p.1 q.1 = Bool.true :=
  ⟨fun a b c => lexLe_trans a.1 b.1 c.1⟩

/-- Strict by-key order on pairs: key order plus distinct keys. -/
def pairLt (p q : Str × Str) : Prop :=
  lexLe p.1 q.1 = Bool.true ∧ p.1 ≠ q.1

instance : IsAntisymm (Str × Str) pairLt :=
  ⟨fun a b hab hba => absurd (lexLe_antisymm a.1 b.1 hab.1 hba.1) hab.2⟩

theorem sorted_pairLt (l : List (Str × Str))
    (hs : List.Sorted (fun p q => lexLe p.1 q.1 = Bool.true) l)
    (hn : (l.map Prod.fst).Nodup) : List.Sorted pairLt l :=
  hs.and (List.pairwise_map.mp hn)

/-- C8, counterexample to the claim as stated: `a=1&a=2` and `a=2&a=1`
are reorderings of each other's pairs (sharing the key `a`), yet the
stable by-key sort preserves the original relative order of equal keys,
so the canonical strings differ. -/
theorem claim_C8_counterexample :
    List.Perm (queryPairs "a=1&a=2".data) (queryPairs "a=2&a=1".data) ∧
    queryCanonical "a=1&a=2".data ≠ queryCanonical "a=2&a=1".data := by
  decide

/-- C8 (amended).  For two nonempty query strings whose `key=value` pair
lists are reorderings of each other and whose keys are pairwise distinct,
the canonical strings computed by `parse_query_params` are equal (the
stable by-key sort is uniquely determined once no two pairs share a
key). -/
theorem claim_C8_canonical_of_perm_nodup_keys (q1 q2 : Str)
    (hq1 : q1 ≠ []) (hq2 : q2 ≠ [])
    (hperm : List.Perm (queryPairs q1) (queryPairs q2))
    (hnodup : ((queryPairs q1).map Prod.fst).Nodup) :
    queryCanonical q1 = queryCanonical q2 := by
  have hnodup2 : ((queryPairs q2).map Prod.fst).Nodup :=
    (hperm.map Prod.fst).nodup hnodup
  have hs1 : List.Sorted (fun p q => lexLe p.1 q.1 = Bool.true)
      (sortPairs (queryPairs q1)) :=
    List.sorted_insertionSort _ _
  have hs2 : List.Sorted (fun p q => lexLe p.1 q.1 = Bool.true)
      (sortPairs (queryPairs q2)) :=
    List.sorted_insertionSort _ _
  have hn1 : ((sortPairs (queryPairs q1)).map Prod.fst).Nodup :=
    ((List.perm_insertionSort _ _).map Prod.fst).symm.nodup hnodup
  have hn2 : ((sortPairs (queryPairs q2)).map Prod.fst).Nodup :=
    ((List.perm_insertionSort _ _).map Prod.fst).symm.nodup hnodup2
  have hpermS : List.Perm (sortPairs (queryPairs q1)) (sortPairs (queryPairs q2)) :=
    (List.perm_insertionSort _ _).trans
      (hperm.trans (List.perm_insertionSort _ _).symm)
  have hss : sortPairs (queryPairs q1) = sortPairs (queryPairs q2) :=
    List.eq_of_perm_of_sorted hpermS (sorted_pairLt _ hs1 hn1)
      (sorted_pairLt _ hs2 hn2)
  simp only [queryCanonical, if_neg hq1, if_neg hq2, hss]

/-- Witness for C8: `b=2&a=1` and `a=1&b=2` are reorderings with distinct
keys and canonicalise identically. -/
theorem claim_C8_witness :
    queryCanonical "b=2&a=1".data = queryCanonical "a=1&b=2".data :=
  claim_C8_canonical_of_perm_nodup_keys "b=2&a=1".data "a=1&b=2".data
    (by decide) (by decide) (by decide) (by decide)

/-! ### Claim C10: Prefer-header parsing and the invalid list -/

theorem splitOnceChar_none_not_mem {c : Char} :
    ∀ {s : Str}, splitOnceChar c s = Option.none → c ∉ s := by
  intro s
  induction s with
  | nil => intro _ h; cases h
  | cons a rest ih =>
      intro hs hmem
      simp only [splitOnceChar] at hs
      by_cases hac : a = c
      · rw [if_pos hac] at hs
        exact Option.noConfusion hs
      · rw [if_neg hac] at hs
        rcases List.mem_cons.mp hmem with rfl | h2
        · exact hac rfl
        · refine ih ?_ h2
          cases hsp : splitOnceChar c rest with
          | none => rfl
          | some p =>
              rw [hsp] at hs
              exact Option.noConfusion hs

/-- The Prefer keys tested by the `key=value` branch of
`parse_preference`. -/
def recognizedPrefKeys : List Str :=
  ["resolution".data, "return".data, "count".data, "tx".data,
   "missing".data, "handling".data, "timezone".data, "max-affected".data]

/-- C10.  Recognized Prefer keys never touch `invalid`, whatever the
value: a bad value silently leaves the preference at its default
(`resolution`/`count` at `none`, `return` at minimal, `tx` at commit,
`missing` at apply-defaults, `handling` at strict, a non-numeric
`max-affected` leaves the preferences entirely unchanged); only entries
with an unrecognized key, or standalone tokens without `=`, are appended
to `invalid`. -/
theorem claim_C10_invalid_only_unrecognized :
    (∀ (prefs : Preferences) (pref : Str) (kv : Str × Str),
      splitOnceChar '=' (trimStr pref) = some kv →
      trimStr kv.1 ∈ recognizedPrefKeys →
      (parse_preference prefs pref).invalid = prefs.invalid) ∧
    (∀ (prefs : Preferences) (pref : Str) (kv : Str × Str),
      splitOnceChar '=' (trimStr pref) = some kv →
      trimStr kv.1 ∉ recognizedPrefKeys →
      (parse_preference prefs pref).invalid = prefs.invalid ++ [trimStr pref]) ∧
    (∀ (prefs : Preferences) (pref : Str) (kv : Str × Str),
      splitOnceChar '=' (trimStr pref) = some kv →
      trimStr kv.1 = "resolution".data →
      trimMatchesChar '"' (trimStr kv.2) ∉
        ["merge-duplicates".data, "ignore-duplicates".data] →
      (parse_preference prefs pref).resolution = Option.none) ∧
    (∀ (prefs : Preferences) (pref : Str) (kv : Str × Str),
      splitOnceChar '=' (trimStr pref) = some kv →
      trimStr kv.1 = "return".data →
      trimMatchesChar '"' (trimStr kv.2) ∉
        ["representation".data, "headers-only".data, "minimal".data] →
      (parse_preference prefs pref).representation = PreferRepresentation.none) ∧
    (∀ (prefs : Preferences) (pref : Str) (kv : Str × Str),
      splitOnceChar '=' (trimStr pref) = some kv →
      trimStr kv.1 = "count".data →
      trimMatchesChar '"' (trimStr kv.2) ∉
        ["exact".data, "planned".data, "estimated".data] →
      (parse_preference prefs pref).count = Option.none) ∧
    (∀ (prefs : Preferences) (pref : Str) (kv : Str × Str),
      splitOnceChar '=' (trimStr pref) = some kv →
      trimStr kv.1 = "tx".data →
      trimMatchesChar '"' (trimStr kv.2) ∉ ["commit".data, "rollback".data] →
      (parse_preference prefs pref).transaction = PreferTransaction.commit) ∧
    (∀ (prefs : Preferences) (pref : Str) (kv : Str × Str),
      splitOnceChar '=' (trimStr pref) = some kv →
      trimStr kv.1 = "missing".data →
      trimMatchesChar '"' (trimStr kv.2) ∉ ["default".data, "null".data] →
      (parse_preference prefs pref).missing = PreferMissing.applyDefaults) ∧
    (∀ (prefs : Preferences) (pref : Str) (kv : Str × Str),
      splitOnceChar '=' (trimStr pref) = some kv →
      trimStr kv.1 = "handling".data →
      trimMatchesChar '"' (trimStr kv.2) ∉ ["strict".data, "lenient".data] →
      (parse_preference prefs pref).handling = PreferHandling.strict) ∧
    (∀ (prefs : Preferences) (pref : Str) (kv : Str × Str),
      splitOnceChar '=' (trimStr pref) = some kv →
      trimStr kv.1 = "max-affected".data →
      parseI64 (trimMatchesChar '"' (trimStr kv.2)) = Option.none →
      parse_preference prefs pref = prefs) ∧
    (∀ (prefs : Preferences) (pref : Str),
      splitOnceChar '=' (trimStr pref) = Option.none →
      (parse_preference prefs pref).invalid = prefs.invalid ++ [trimStr pref]) := by
  refine ⟨?_, ?_, ?_, ?_, ?_, ?_, ?_, ?_, ?_, ?_⟩
  · intro prefs pref kv hsplit hmem
    simp only [recognizedPrefKeys, List.mem_cons, List.not_mem_nil, or_false] at hmem
    rcases hmem with hk | hk | hk | hk | hk | hk | hk | hk <;>
      simp only [parse_preference, hsplit, hk] <;> simp +decide <;>
      (try split) <;> rfl
  · intro prefs pref kv hsplit hmem
    have h1 : trimStr kv.1 ≠ "resolution".data :=
      fun h => hmem (by rw [h]; decide)
    have h2 : trimStr kv.1 ≠ "return".data := fun h => hmem (by rw [h]; decide)
    have h3 : trimStr kv.1 ≠ "count".data := fun h => hmem (by rw [h]; decide)
    have h4 : trimStr kv.1 ≠ "tx".data := fun h => hmem (by rw [h]; decide)
    have h5 : trimStr kv.1 ≠ "missing".data := fun h => hmem (by rw [h]; decide)
    have h6 : trimStr kv.1 ≠ "handling".data := fun h => hmem (by rw [h]; decide)
    have h7 : trimStr kv.1 ≠ "timezone".data := fun h => hmem (by rw [h]; decide)
    have h8 : trimStr kv.1 ≠ "max-affected".data :=
      fun h => hmem (by rw [h]; decide)
    simp only [parse_preference, hsplit]
    rw [if_neg h1, if_neg h2, if_neg h3, if_neg h4, if_neg h5, if_neg h6,
      if_neg h7, if_neg h8]
  · intro prefs pref kv hsplit hk hval
    have hv1 : trimMatchesChar '"' (trimStr kv.2) ≠ "merge-duplicates".data :=
      fun h => hval (by rw [h]; decide)
    have hv2 : trimMatchesChar '"' (trimStr kv.2) ≠ "ignore-duplicates".data :=
      fun h => hval (by rw [h]; decide)
    simp +decide [parse_preference, hsplit, hk, hv1, hv2]
  · intro prefs pref kv hsplit hk hval
    have hv1 : trimMatchesChar '"' (trimStr kv.2) ≠ "representation".data :=
      fun h => hval (by rw [h]; decide)
    have hv2 : trimMatchesChar '"' (trimStr kv.2) ≠ "headers-only".data :=
      fun h => hval (by rw [h]; decide)
    have hv3 : trimMatchesChar '"' (trimStr kv.2) ≠ "minimal".data :=
      fun h => hval (by rw [h]; decide)
    simp +decide [parse_preference, hsplit, hk, hv1, hv2, hv3]
  · intro prefs pref kv hsplit hk hval
    have hv1 : trimMatchesChar '"' (trimStr kv.2) ≠ "exact".data :=
      fun h => hval (by rw [h]; decide)
    have hv2 : trimMatchesChar '"' (trimStr kv.2) ≠ "planned".data :=
      fun h => hval (by rw [h]; decide)
    have hv3 : trimMatchesChar '"' (trimStr kv.2) ≠ "estimated".data :=
      fun h => hval (by rw [h]; decide)
    simp +decide [parse_preference, hsplit, hk, hv1, hv2, hv3]
  · intro prefs pref kv hsplit hk hval
    have hv1 : trimMatchesChar '"' (trimStr kv.2) ≠ "commit".data :=
      fun h => hval (by rw [h]; decide)
    have hv2 : trimMatchesChar '"' (trimStr kv.2) ≠ "rollback".data :=
      fun h => hval (by rw [h]; decide)
    simp +decide [parse_preference, hsplit, hk, hv1, hv2]
  · intro prefs pref kv hsplit hk hval
    have hv1 : trimMatchesChar '"' (trimStr kv.2) ≠ "default".data :=
      fun h => hval (by rw [h]; decide)
    have hv2 : trimMatchesChar '"' (trimStr kv.2) ≠ "null".data :=
      fun h => hval (by rw [h]; decide)
    simp +decide [parse_preference, hsplit, hk, hv1, hv2]
  · intro prefs pref kv hsplit hk hval
    have hv1 : trimMatchesChar '"' (trimStr kv.2) ≠ "strict".data :=
      fun h => hval (by rw [h]; decide)
    have hv2 : trimMatchesChar '"' (trimStr kv.2) ≠ "lenient".data :=
      fun h => hval (by rw [h]; decide)
    simp +decide [parse_preference, hsplit, hk, hv1, hv2]
  · intro prefs pref kv hsplit hk hpi
    simp +decide [parse_preference, hsplit, hk, hpi]
  · intro prefs pref hsplit
    have hmem : '=' ∉ trimStr pref := splitOnceChar_none_not_mem hsplit
    have hn1 : trimStr pref ≠ "return=representation".data :=
      fun h => hmem (by rw [h]; decide)
    have hn2 : trimStr pref ≠ "return=headers-only".data :=
      fun h => hmem (by rw [h]; decide)
    have hn3 : trimStr pref ≠ "return=minimal".data :=
      fun h => hmem (by rw [h]; decide)
    have hn4 : trimStr pref ≠ "count=exact".data :=
      fun h => hmem (by rw [h]; decide)
    have hn5 : trimStr pref ≠ "count=planned".data :=
      fun h => hmem (by rw [h]; decide)
    have hn6 : trimStr pref ≠ "count=estimated".data :=
      fun h => hmem (by rw [h]; decide)
    have hn7 : trimStr pref ≠ "resolution=merge-duplicates".data :=
      fun h => hmem (by rw [h]; decide)
    have hn8 : trimStr pref ≠ "resolution=ignore-duplicates".data :=
      fun h => hmem (by rw [h]; decide)
    have hn9 : trimStr pref ≠ "tx=commit".data :=
      fun h => hmem (by rw [h]; decide)
    have hn10 : trimStr pref ≠ "tx=rollback".data :=
      fun h => hmem (by rw [h]; decide)
    have hn11 : trimStr pref ≠ "params=single-object".data :=
      fun h => hmem (by rw [h]; decide)
    have hn12 : trimStr pref ≠ "params=multiple-objects".data :=
      fun h => hmem (by rw [h]; decide)
    simp only [parse_preference, hsplit]
    rw [if_neg hn1, if_neg hn2, if_neg hn3, if_neg hn4, if_neg hn5,
      if_neg hn6, if_neg hn7, if_neg hn8, if_neg hn9, if_neg hn10,
      if_neg hn11, if_neg hn12]

/-- Witness for C10 on concrete Prefer entries: `count=wrong` resets the
count silently without touching `invalid`, `frobnicate=yes` and the
standalone token `respect-nulls` land in `invalid`, and a non-numeric
`max-affected` changes nothing. -/
theorem claim_C10_witness :
    (parse_preference Preferences.default "count=wrong".data).invalid =
      Preferences.default.invalid ∧
    (parse_preference Preferences.default "count=wrong".data).count =
      Option.none ∧
    (parse_preference Preferences.default "frobnicate=yes".data).invalid =
      Preferences.default.invalid ++ ["frobnicate=yes".data] ∧
    (parse_preference Preferences.default "max-affected=lots".data) =
      Preferences.default ∧
    (parse_preference Preferences.default "respect-nulls".data).invalid =
      Preferences.default.invalid ++ ["respect-nulls".data] :=
  ⟨claim_C10_invalid_only_unrecognized.1 Preferences.default
      "count=wrong".data ("count".data, "wrong".data) (by decide) (by decide),
    claim_C10_invalid_only_unrecognized.2.2.2.2.1 Preferences.default
      "count=wrong".data ("count".data, "wrong".data) (by decide) (by decide)
      (by decide),
    claim_C10_invalid_only_unrecognized.2.1 Preferences.default
      "frobnicate=yes".data ("frobnicate".data, "yes".data) (by decide)
      (by decide),
    claim_C10_invalid_only_unrecognized.2.2.2.2.2.2.2.2.1 Preferences.default
      "max-affected=lots".data ("max-affected".data, "lots".data) (by decide)
      (by decide) (by decide),
    claim_C10_invalid_only_unrecognized.2.2.2.2.2.2.2.2.2 Preferences.default
      "respect-nulls".data (by decide)⟩

end Postrust
